import Mathlib

/-!
# Hotel booking system: reservation ledger, availability search, listings and reports

A shallow embedding of `src/BookingSystem.cpp`.  The SQLite store behind `class Database`
is modelled as three tables held in lists (table scan order is insertion order); every
`Database` member function becomes a pure function on that state, and each SQL statement
is translated clause by clause (`JOIN`, `WHERE`, `GROUP BY`, `ORDER BY`, aggregates).

Numbers of type `double` are modelled by exact rationals, `int` by integers.  A `String`
stands for a `std::string` with one `Char` per `char`.  The C library call `mktime` and the
SQLite function `JULIANDAY` are modelled by the calendar arithmetic they perform.
-/

namespace HotelBooking

/-! ## Data model -/

/-- Source `struct Filter { string in, out; int guests; }` (the field `in` is spelled `in_`,
because `in` is reserved). -/
structure Filter where
  in_ : String
  out : String
  guests : Int
deriving DecidableEq, Repr

/-- Source `class User`. -/
structure User where
  user_id : Int
  login : String
  name : String
  surname : String
  role : String
deriving DecidableEq, Repr

/-- Source `class Room`: one line of a search result. -/
structure Room where
  room_id : Int
  type : String
  capacity : Int
  price : ℚ
deriving DecidableEq, Repr

/-- Source `class Reservation`: one line of a listing. -/
structure Reservation where
  reservation_id : Int
  guest_id : Int
  room_id : Int
  guests_num : Int
  in_ : String
  out : String
  total_price : ℚ
  status : String
deriving DecidableEq, Repr

/-- Source `enum ReservationStatus { NOT_STARTED, ACTIVE, OVER }`. -/
inductive ReservationStatus where
  | NOT_STARTED
  | ACTIVE
  | OVER
deriving DecidableEq, Repr

/-- One row of table `room_types(type_id, name)`. -/
structure RoomTypeRow where
  type_id : Int
  name : String
deriving DecidableEq, Repr

/-- One row of table `rooms(room_id, type_id, capacity, price)`. -/
structure RoomRow where
  room_id : Int
  type_id : Int
  capacity : Int
  price : ℚ
deriving DecidableEq, Repr

/-- One row of table `bookings(booking_id, user_id, room_id, guests_num, date_in, date_out,
status)`.  Dates are stored as text, exactly as `create_reservation` binds them. -/
structure BookingRow where
  booking_id : Int
  user_id : Int
  room_id : Int
  guests_num : Int
  date_in : String
  date_out : String
  status : String
deriving DecidableEq, Repr

/-- The state behind `sqlite3* DB`: the tables the modelled statements read and write. -/
structure Database where
  room_types : List RoomTypeRow
  rooms : List RoomRow
  bookings : List BookingRow
deriving DecidableEq, Repr

/-- What a statement-executing member function writes to the console: `done` is the
confirmation printed to `cout` after `sqlite3_step` returned `SQLITE_DONE`, `error` is the
message printed to `cerr` on any other return code. -/
inductive Outcome where
  | done
  | error
deriving DecidableEq, Repr

/-! ## SQL value comparison -/

/-- Lexicographic order on code points.  SQLite compares two TEXT values with `memcmp`
(the BINARY collation); on UTF-8 text that is this order. -/
def lex_lt : List Char → List Char → Bool
  | [], [] => false
  | [], _ :: _ => true
  | _ :: _, [] => false
  | a :: as, b :: bs => decide (a.toNat < b.toNat) || (decide (a.toNat = b.toNat) && lex_lt as bs)

/-- SQL `a < b` on two TEXT values. -/
def text_lt (a b : String) : Bool := lex_lt a.toList b.toList

/-- SQL `a <= b` on two TEXT values. -/
def text_le (a b : String) : Bool := !text_lt b a

/-- The condition `b.date_out > ?in AND b.date_in < ?out` of the availability sub-query:
the stored reservation `b` overlaps the requested range. -/
def overlaps_range (b : BookingRow) (in_ out : String) : Bool :=
  text_lt in_ b.date_out && text_lt b.date_in out

namespace Database

/-- The rowid SQLite gives to a row inserted without an explicit key: one more than the
largest key in the table (1 for an empty table). -/
def next_rowid (ids : List Int) : Int := ids.foldl max 0 + 1

/-- The sub-query `SELECT 1 FROM bookings AS b WHERE b.room_id = r.room_id AND
b.date_out > ? AND b.date_in < ?` returns a row. -/
def has_overlapping_booking (db : Database) (room_id : Int) (in_ out : String) : Bool :=
  db.bookings.any fun b => decide (b.room_id = room_id) && overlaps_range b in_ out

/-- Source `Database::create_reservation`: `BEGIN; INSERT INTO bookings (user_id, room_id,
guests_num, date_in, date_out, status) VALUES (?, ?, ?, ?, ?, ?); COMMIT` and the confirmation,
or `ROLLBACK` and an error message when the store does not return `SQLITE_DONE`
(`fault = true`).  The function runs no other statement. -/
def create_reservation (db : Database) (user_id room_id guests_num : Int)
    (in_ out status : String) (fault : Bool) : Database × Outcome :=
  if fault then (db, Outcome.error)
  else
    ({ db with bookings := db.bookings ++
        [{ booking_id := next_rowid (db.bookings.map BookingRow.booking_id), user_id := user_id,
           room_id := room_id, guests_num := guests_num, date_in := in_, date_out := out,
           status := status }] },
     Outcome.done)

/-- Source `Database::get_payment`: `UPDATE bookings SET status = 'paid' WHERE booking_id = ?`.
The statement finishes with `SQLITE_DONE` whether or not a row matched, and the function
then prints the confirmation; `fault = true` is a store failure. -/
def get_payment (db : Database) (id : Int) (fault : Bool) : Database × Outcome :=
  if fault then (db, Outcome.error)
  else
    ({ db with bookings := db.bookings.map fun b =>
        if b.booking_id = id then { b with status := "paid" } else b },
     Outcome.done)

/-- Source `Database::delete_reservation`: `DELETE FROM bookings WHERE booking_id = ?`.
The statement finishes with `SQLITE_DONE` whether or not a row matched, and the function
then prints the confirmation; `fault = true` is a store failure. -/
def delete_reservation (db : Database) (id : Int) (fault : Bool) : Database × Outcome :=
  if fault then (db, Outcome.error)
  else
    ({ db with bookings := db.bookings.filter fun b => decide (b.booking_id ≠ id) },
     Outcome.done)

end Database

/-! ## Grouping -/

/-- Clause `GROUP BY key`: one group per distinct key, the groups in ascending key order (the order
in which the sorter delivers them), each group holding the rows with that key in scan order. -/
def group_by {α κ : Type} [DecidableEq κ] (key : α → κ) (le : κ → κ → Bool)
    (rows : List α) : List (List α) :=
  (((rows.map key).dedup).insertionSort fun a b => le a b = true).map fun k =>
    rows.filter fun x => decide (key x = k)

/-- The row of a group on which the bare (non-aggregate) columns of an aggregate query are
evaluated.  SQLite uses one arbitrarily selected row of the group, the same for every bare
column; `pick` is that selection (any function: its value is taken modulo the group size). -/
def bare_row {α : Type} (pick : List α → Nat) (g : List α) : Option α :=
  g[pick g % g.length]?

/-- Ascending order on the grouping key `(type_id, capacity)`. -/
def key_le (a b : Int × Int) : Bool :=
  decide (a.1 < b.1) || (decide (a.1 = b.1) && decide (a.2 ≤ b.2))

/-! ## Julian day numbers -/

/-- Value of a decimal digit, `none` for any other character. -/
def digit_value (c : Char) : Option Int :=
  if c.isDigit then some ((c.toNat : Int) - 48) else none

/-- SQLite's internal time value `iJD` (milliseconds since noon, 24 November 4714 BC) of a
date text `YYYY-MM-DD`, following `parseYyyyMmDd` (four digits, `-`, two digits in 1..12, `-`,
two digits in 1..31) and `computeJD`.  Only this date-only form is modelled, the form
`date::to_str` writes; other text gives `none` (SQL NULL). -/
def iJD (s : String) : Option Int :=
  match s.toList with
  | [y1, y2, y3, y4, '-', m1, m2, '-', d1, d2] => do
    let a1 ← digit_value y1
    let a2 ← digit_value y2
    let a3 ← digit_value y3
    let a4 ← digit_value y4
    let b1 ← digit_value m1
    let b2 ← digit_value m2
    let c1 ← digit_value d1
    let c2 ← digit_value d2
    let Y := 1000 * a1 + 100 * a2 + 10 * a3 + a4
    let M := 10 * b1 + b2
    let D := 10 * c1 + c2
    if M < 1 ∨ M > 12 ∨ D < 1 ∨ D > 31 then none
    else
      let Y1 := if M ≤ 2 then Y - 1 else Y
      let M1 := if M ≤ 2 then M + 12 else M
      let A := Int.tdiv Y1 100
      let B := 2 - A + Int.tdiv A 4
      let X1 := Int.tdiv (36525 * (Y1 + 4716)) 100
      let X2 := Int.tdiv (306001 * (M1 + 1)) 10000
      some ((X1 + X2 + D + B) * 86400000 - 131716800000)
  | _ => none

/-- SQL `JULIANDAY(text)`: the Julian day number `iJD / 86400000`, NULL for unparsable text. -/
def JULIANDAY (s : String) : Option ℚ :=
  match iJD s with
  | some i => some ((i : ℚ) / 86400000)
  | none => none

/-- The SQL expression `price * (JULIANDAY(date_out) - JULIANDAY(date_in))` as read back with
`sqlite3_column_double`, which turns NULL into `0.0`. -/
def price_times_nights (price : ℚ) (date_in date_out : String) : ℚ :=
  match JULIANDAY date_out, JULIANDAY date_in with
  | some o, some i => price * (o - i)
  | _, _ => 0

/-- The status condition `get_reservations_by_status` appends to its `WHERE` clause; `now` is
the value of `JULIANDAY('NOW')`.  A comparison with NULL does not select the row.
* `NOT_STARTED`: `JULIANDAY(b.date_in) > JULIANDAY('NOW')`
* `ACTIVE`: `JULIANDAY('NOW') BETWEEN JULIANDAY(b.date_in) AND JULIANDAY(b.date_out)`
* `OVER`: `JULIANDAY(b.date_out) < JULIANDAY('NOW')` -/
def status_condition (status : ReservationStatus) (date_in date_out : String) (now : ℚ) : Bool :=
  match status with
  | ReservationStatus.NOT_STARTED =>
    match JULIANDAY date_in with
    | some i => decide (i > now)
    | none => false
  | ReservationStatus.ACTIVE =>
    match JULIANDAY date_in, JULIANDAY date_out with
    | some i, some o => decide (now ≥ i) && decide (now ≤ o)
    | _, _ => false
  | ReservationStatus.OVER =>
    match JULIANDAY date_out with
    | some o => decide (o < now)
    | none => false

/-- One line printed by `get_report_by_dates`: `COUNT(b.booking_id)`, the amount column and
`b.status`. -/
structure ReportRow where
  count : Int
  amount : ℚ
  status : String
deriving DecidableEq, Repr

namespace Database

/-- Clause `FROM rooms AS r JOIN room_types AS rt ON r.type_id = rt.type_id`. -/
def rooms_join_types (db : Database) : List (RoomRow × RoomTypeRow) :=
  db.rooms.flatMap fun r =>
    (db.room_types.filter fun rt => decide (r.type_id = rt.type_id)).map fun rt => (r, rt)

/-- Clause `FROM bookings AS b JOIN rooms AS r ON b.room_id = r.room_id`. -/
def bookings_join_rooms (db : Database) : List (BookingRow × RoomRow) :=
  db.bookings.flatMap fun b =>
    (db.rooms.filter fun r => decide (b.room_id = r.room_id)).map fun r => (b, r)

/-- Source `Database::new_search`:
`SELECT r.room_id, rt.name, r.capacity, r.price FROM rooms AS r JOIN room_types AS rt ON
r.type_id = rt.type_id WHERE NOT EXISTS (SELECT 1 FROM bookings AS b WHERE b.room_id =
r.room_id AND b.date_out > ? AND b.date_in < ?) AND r.capacity >= ? GROUP BY r.type_id,
r.capacity`, bound to `filter->in`, `filter->out`, `filter->guests`; every result row becomes
a `Room`.  All selected columns are bare columns of the grouped query. -/
def new_search (db : Database) (filter : Filter)
    (pick : List (RoomRow × RoomTypeRow) → Nat) : List Room :=
  let selected := db.rooms_join_types.filter fun x =>
    !(db.has_overlapping_booking x.1.room_id filter.in_ filter.out) &&
      decide (x.1.capacity ≥ filter.guests)
  (group_by (fun x => (x.1.type_id, x.1.capacity)) key_le selected).filterMap fun g =>
    (bare_row pick g).map fun x =>
      { room_id := x.1.room_id, type := x.2.name, capacity := x.1.capacity, price := x.1.price }

/-- Source `Database::get_reservations_by_status`:
`SELECT b.booking_id, b.room_id, b.user_id, b.guests_num, b.date_in, b.date_out, r.price *
(JULIANDAY(b.date_out) - JULIANDAY(b.date_in)), b.status FROM bookings AS b JOIN rooms AS r
ON b.room_id = r.room_id WHERE <conditions> ORDER BY date_in ASC`, where the condition
`b.user_id = ?` is added only `if (user_id != 12)`, followed by the status condition.
`now` is `JULIANDAY('NOW')`. -/
def get_reservations_by_status (db : Database) (status : ReservationStatus) (user_id : Int)
    (now : ℚ) : List Reservation :=
  let selected := db.bookings_join_rooms.filter fun x =>
    (if user_id ≠ 12 then decide (x.1.user_id = user_id) else true) &&
      status_condition status x.1.date_in x.1.date_out now
  let ordered := selected.insertionSort fun x y => text_le x.1.date_in y.1.date_in = true
  ordered.map fun x =>
    { reservation_id := x.1.booking_id, guest_id := x.1.user_id, room_id := x.1.room_id,
      guests_num := x.1.guests_num, in_ := x.1.date_in, out := x.1.date_out,
      total_price := price_times_nights x.2.price x.1.date_in x.1.date_out,
      status := x.1.status }

/-- Source `Database::get_report_by_dates`:
`SELECT COUNT(b.booking_id), SUM(r.price) * (JULIANDAY(b.date_out) - JULIANDAY(b.date_in)),
b.status FROM bookings AS b JOIN rooms AS r ON b.room_id = r.room_id WHERE b.date_in >= ? AND
b.date_out <= ? GROUP BY b.status`, bound to `filter->in` and `filter->out`; the result is
the list of printed lines (the empty list prints the "no data" message).  In the amount
column `SUM(r.price)` is the aggregate and `b.date_out`, `b.date_in` are bare columns. -/
def get_report_by_dates (db : Database) (filter : Filter)
    (pick : List (BookingRow × RoomRow) → Nat) : List ReportRow :=
  let selected := db.bookings_join_rooms.filter fun x =>
    text_le filter.in_ x.1.date_in && text_le x.1.date_out filter.out
  (group_by (fun x => x.1.status) text_le selected).filterMap fun g =>
    (bare_row pick g).map fun x =>
      { count := (g.length : Int),
        amount := price_times_nights ((g.map fun y => y.2.price).sum) x.1.date_in x.1.date_out,
        status := x.1.status }

end Database

namespace BookingSystem

/-- Source `BookingSystem::reservations`, one pass of its menu loop: the listing handed to
`print_bookings` for menu choice 1 (`ACTIVE`), 2 (`OVER`) or 3 (`NOT_STARTED`), always queried
with `user->get_id()`; `none` for choice 0 (return).  `AdminSystem` inherits this function
unchanged. -/
def reservations (db : Database) (user : User) (choice : Int) (now : ℚ) :
    Option (List Reservation) :=
  if choice = 1 then some (db.get_reservations_by_status ReservationStatus.ACTIVE user.user_id now)
  else if choice = 2 then
    some (db.get_reservations_by_status ReservationStatus.OVER user.user_id now)
  else if choice = 3 then
    some (db.get_reservations_by_status ReservationStatus.NOT_STARTED user.user_id now)
  else none

end BookingSystem

/-! ## The non-overlap invariant -/

/-- No two reservations of the same room overlap: for any two rows `a`, `b` of `bookings`
with the same `room_id`, not (`a.date_in < b.date_out` and `a.date_out > b.date_in`).  The
condition is symmetric in `a` and `b`, so stating it for each pair once covers both orders. -/
def NoOverlap (db : Database) : Prop :=
  db.bookings.Pairwise fun a b =>
    a.room_id = b.room_id → overlaps_range a b.date_in b.date_out = false

instance (db : Database) : Decidable (NoOverlap db) := by
  unfold NoOverlap
  infer_instance

/-! ## Sample states -/

/-- A catalog with two room types and three rooms, and an empty ledger. -/
def empty_ledger : Database :=
  { room_types := [⟨1, "Standard"⟩, ⟨2, "Lux"⟩],
    rooms := [⟨1, 1, 2, 1000⟩, ⟨2, 1, 2, 1000⟩, ⟨3, 2, 4, 500⟩],
    bookings := [] }

/-- The sample catalog with one reservation of room 1 for 1 to 5 June 2024. -/
def one_booking : Database :=
  { empty_ledger with bookings := [⟨1, 7, 1, 2, "2024-06-01", "2024-06-05", "not paid"⟩] }

/-! ## Schema constraints and buckets -/

/-- Modelled from the spec: the schema file of the store is not among the sources; section 6
of the spec declares `rooms(room_id PK, type_id FK, capacity, price)`, so room ids are unique
and every room refers to an existing row of `room_types`. -/
def Database.catalog_keys_ok (db : Database) : Prop :=
  (db.rooms.map RoomRow.room_id).Nodup ∧
    ∀ r ∈ db.rooms, ∃ rt ∈ db.room_types, rt.type_id = r.type_id

instance (db : Database) : Decidable db.catalog_keys_ok := by
  unfold Database.catalog_keys_ok
  infer_instance

/-- The (type, capacity) bucket of a search result entry: the type id of the catalog unit
whose room id the entry carries, with the capacity the entry shows. -/
def Database.bucket_of (db : Database) (e : Room) : Option (Int × Int) :=
  (db.rooms.find? fun u => decide (u.room_id = e.room_id)).map fun u => (u.type_id, e.capacity)

/-- The sample catalog with two reservations of room 3 that overlap each other (1 to 5 June
and 3 to 7 June 2024). -/
def double_booked : Database :=
  { empty_ledger with
    bookings := [⟨1, 7, 3, 2, "2024-06-01", "2024-06-05", "paid"⟩,
                 ⟨2, 8, 3, 2, "2024-06-03", "2024-06-07", "paid"⟩] }

/-- The sample catalog with two `paid` reservations inside June 2024: two nights in room 1
(1000 a night) and three nights in room 3 (500 a night). -/
def two_paid : Database :=
  { empty_ledger with
    bookings := [⟨1, 7, 1, 2, "2024-06-01", "2024-06-03", "paid"⟩,
                 ⟨2, 8, 3, 2, "2024-06-10", "2024-06-13", "paid"⟩] }

/-- Modelled from the spec: the schema file of the store is not among the sources; section 6
of the spec declares `rooms(room_id PK, ...)` and `bookings(..., room_id FK, ...)`, so room
ids are unique and every reservation refers to an existing room. -/
def Database.booking_keys_ok (db : Database) : Prop :=
  (db.rooms.map RoomRow.room_id).Nodup ∧
    ∀ b ∈ db.bookings, ∃ r ∈ db.rooms, r.room_id = b.room_id

instance (db : Database) : Decidable db.booking_keys_ok := by
  unfold Database.booking_keys_ok
  infer_instance

/-! ## Calendar (source namespace `date`) -/

/-- Source `struct Date { int day, month, year; }`. -/
structure Date where
  day : Int
  month : Int
  year : Int
deriving DecidableEq, Repr

namespace date

/-- Source `date::is_year_leap`: `(year % 4 == 0 && year % 100 != 0) || (year % 400 == 0)`.
A remainder is compared with zero only, so the sign convention of `%` plays no part. -/
def is_year_leap (year : Int) : Bool :=
  (decide (year % 4 = 0) && decide (year % 100 ≠ 0)) || decide (year % 400 = 0)

/-- The alternatives `[1-9]|0[1-9]|1[0-2]` of the second capture group. -/
def month_group (cs : List Char) : Bool :=
  match cs with
  | [a] => decide (49 ≤ a.toNat) && decide (a.toNat ≤ 57)
  | [a, b] =>
    (decide (a = '0') && decide (49 ≤ b.toNat) && decide (b.toNat ≤ 57)) ||
      (decide (a = '1') && decide (48 ≤ b.toNat) && decide (b.toNat ≤ 50))
  | _ => false

/-- The alternatives `[1-9]|0[1-9]|[12][0-9]|3[01]` of the third capture group. -/
def day_group (cs : List Char) : Bool :=
  match cs with
  | [a] => decide (49 ≤ a.toNat) && decide (a.toNat ≤ 57)
  | [a, b] =>
    (decide (a = '0') && decide (49 ≤ b.toNat) && decide (b.toNat ≤ 57)) ||
      ((decide (a = '1') || decide (a = '2')) && b.isDigit) ||
      (decide (a = '3') && (decide (b = '0') || decide (b = '1')))
  | _ => false

/-- The part `\D(day group)$` of the pattern after a candidate month group `m`. -/
def match_tail (m rest : List Char) : Option (List Char × List Char) :=
  match rest with
  | s2 :: d => if month_group m && !s2.isDigit && day_group d then some (m, d) else none
  | [] => none

/-- Function `regex_match` of the whole text against
`^(\d{4})\D([1-9]|0[1-9]|1[0-2])\D([1-9]|0[1-9]|[12][0-9]|3[01])$`; the result holds the three
capture groups.  One `Char` of the text stands for one `char` of the `std::string`; `\d` is
a decimal digit and `\D` any other `char`.  The month alternatives are tried in the order of
the pattern: one character first, then two. -/
def regex_match_date (s : List Char) : Option (List Char × List Char × List Char) :=
  match s with
  | y1 :: y2 :: y3 :: y4 :: s1 :: m1 :: m2 :: more =>
    if y1.isDigit && y2.isDigit && y3.isDigit && y4.isDigit && !s1.isDigit then
      match (match_tail [m1] (m2 :: more)).orElse fun _ => match_tail [m1, m2] more with
      | some (m, d) => some ([y1, y2, y3, y4], m, d)
      | none => none
    else none
  | _ => none

/-- Function `std::stoi` on a string of decimal digits. -/
def stoi (cs : List Char) : Int :=
  cs.foldl (fun acc c => 10 * acc + ((c.toNat : Int) - 48)) 0

/-- Source `date::parse_date`: the regular expression, the year range 2001 to 2099, and the
day bound from the table `days_in_month`, whose February entry is 29 in a leap year. -/
def parse_date (date : String) : Option Date :=
  match regex_match_date date.toList with
  | none => none
  | some (y, m, d) =>
    let year := stoi y
    let month := stoi m
    let day := stoi d
    if year < 2001 ∨ year > 2099 then none
    else
      let days_in_month : List Int :=
        [31, if is_year_leap year then 29 else 28, 31, 30, 31, 30, 31, 31, 30, 31, 30, 31]
      if day > days_in_month.getD (month - 1).toNat 0 then none
      else some { day := day, month := month, year := year }

/-- The character `'0' + n` of a decimal digit `n`. -/
def digit_char (n : Nat) : Char := Char.ofNat (48 + n)

/-- Decimal digits of a natural number, most significant first (`fuel` bounds the number of
digits). -/
def nat_digits : Nat → Nat → List Char
  | 0, _ => []
  | fuel + 1, n =>
    if n < 10 then [digit_char n] else nat_digits fuel (n / 10) ++ [digit_char (n % 10)]

/-- Function `std::to_string(int)`: the decimal representation, with a leading `-` for a negative
number. -/
def to_string (n : Int) : List Char :=
  if n < 0 then '-' :: nat_digits (n.natAbs + 1) n.natAbs else nat_digits (n.natAbs + 1) n.natAbs

/-- Source `date::to_str`: year, month and day in decimal, month and day padded with one `0`
when shorter than two characters, joined by `-`. -/
def to_str (date : Date) : String :=
  let year := to_string date.year
  let month := to_string date.month
  let day := to_string date.day
  let month := if month.length < 2 then '0' :: month else month
  let day := if day.length < 2 then '0' :: day else day
  String.mk (year ++ '-' :: month ++ '-' :: day)

/-- Days from 1 January to the first day of each month in a common year, the table `mktime`
uses. -/
def days_before_month : List Int := [0, 31, 59, 90, 120, 151, 181, 212, 243, 273, 304, 334]

/-- Leap days of the Gregorian calendar in the years before `year`. -/
def leap_days_before (year : Int) : Int :=
  (year - 1) / 4 - (year - 1) / 100 + (year - 1) / 400

/-- Days from 1 January 1970 to the day `tm_mday` of month `tm_mon` (0 for January) of
`year`, as `mktime` counts them: 365 for each elapsed year, one for each elapsed leap year,
the days before the month (one more after February in a leap year) and the day of the
month. -/
def days_since_epoch (year tm_mon tm_mday : Int) : Int :=
  365 * (year - 1970) + (leap_days_before year - leap_days_before 1970) +
    days_before_month.getD tm_mon.toNat 0 +
    (if is_year_leap year && decide (tm_mon > 1) then 1 else 0) + (tm_mday - 1)

/-- C library `mktime` for a `tm` with zero time of day and `tm_isdst = 0`, fields in range
(`tm_mon` in 0..11, years from 1970 on): the seconds from the epoch to local midnight of the
day, that is 86400 times the days since 1 January 1970 plus the fixed offset `tz` of local
standard time. -/
def mktime (tz tm_year tm_mon tm_mday : Int) : Int :=
  days_since_epoch (tm_year + 1900) tm_mon tm_mday * 86400 + tz

/-- Source `date::to_time_t`: `tm_year = year - 1900`, `tm_mon = month - 1`, `tm_mday = day`,
all other fields zero, then `mktime`. -/
def to_time_t (tz : Int) (date : Date) : Int :=
  mktime tz (date.year - 1900) (date.month - 1) date.day

/-- Source `date::days_between_dates`: `difftime(to_time_t(out), to_time_t(in)) / 86400`
converted to `int`, which truncates toward zero. -/
def days_between_dates (tz : Int) (in_ out : Date) : Int :=
  Int.tdiv (to_time_t tz out - to_time_t tz in_) 86400

end date

/-- The true number of days of a month in the Gregorian calendar, following the words of the
specification: 29 for February exactly in leap years (years divisible by 4 and not by 100, or
divisible by 400) and 28 otherwise, 30 for April, June, September and November, 31 for the
other months. -/
def calendar_days (year month : Int) : Int :=
  if month = 2 then
    if (year % 4 = 0 ∧ year % 100 ≠ 0) ∨ year % 400 = 0 then 29 else 28
  else if month = 4 ∨ month = 6 ∨ month = 9 ∨ month = 11 then 30
  else 31

/-- A number below 100 written with exactly two decimal digits. -/
def two_digits (n : Int) : List Char :=
  [date.digit_char (n.toNat / 10), date.digit_char (n.toNat % 10)]

/-- A number below 10000 written with exactly four decimal digits. -/
def four_digits (n : Int) : List Char :=
  [date.digit_char (n.toNat / 1000), date.digit_char (n.toNat / 100 % 10),
    date.digit_char (n.toNat / 10 % 10), date.digit_char (n.toNat % 10)]

/-- The text `<4-digit year><s1><2-digit month><s2><2-digit day>` of a date. -/
def date_text (d : Date) (s1 s2 : Char) : String :=
  String.mk (four_digits d.year ++ s1 :: (two_digits d.month ++ s2 :: two_digits d.day))

/-- A valid calendar date: month in 1..12 and day between 1 and the true number of days of
the month. -/
def Date.valid (d : Date) : Prop :=
  1 ≤ d.month ∧ d.month ≤ 12 ∧ 1 ≤ d.day ∧ d.day ≤ calendar_days d.year d.month

instance (d : Date) : Decidable d.valid := by
  unfold Date.valid
  infer_instance

namespace BookingSystem

/-- The price quoted in `reservation_process`:
`days = days_between_dates(parse_date(filter->in).value(), parse_date(filter->out).value())`
and `full_price = room.get_price() * days`; `none` stands for the exception thrown by
`.value()` on an empty optional. -/
def full_price (tz : Int) (filter : Filter) (room : Room) : Option ℚ :=
  match date.parse_date filter.in_, date.parse_date filter.out with
  | some i, some o => some (room.price * (date.days_between_dates tz i o : ℚ))
  | _, _ => none

/-- Source `BookingSystem::reservation_process`, one pass for a filter returned by
`build_filter`: the search, the room chosen by its number in the list (`room_choice` admits
0 for "back" and 1 up to the size of the list), the quoted price, the confirmation, the
payment method (`none` for "back") and `create_reservation` for the room id of the chosen
entry with the dates and guests of the same filter.  The result is the store afterwards,
`none` when `.value()` throws.  `user_id` is the id of the logged-in user or of the user
created just before the insertion, which touches table `users` only. -/
def reservation_process (db : Database) (filter : Filter)
    (pick : List (RoomRow × RoomTypeRow) → Nat) (tz : Int) (room_num : Nat) (confirmed : Bool)
    (payment_type : Option String) (user_id : Int) (fault : Bool) : Option Database :=
  let available_rooms := db.new_search filter pick
  if available_rooms.isEmpty then some db
  else if room_num = 0 then some db
  else
    match available_rooms[room_num - 1]? with
    | none => some db
    | some room =>
      match full_price tz filter room with
      | none => none
      | some _ =>
        if !confirmed then some db
        else
          match payment_type with
          | none => some db
          | some status =>
            some (db.create_reservation user_id room.room_id filter.guests filter.in_
              filter.out status fault).1

end BookingSystem

/-- Chronological order of dates: `a` is earlier than `b`. -/
def Date.before (a b : Date) : Prop :=
  a.year < b.year ∨ (a.year = b.year ∧
    (a.month < b.month ∨ (a.month = b.month ∧ a.day < b.day)))

instance (a b : Date) : Decidable (a.before b) := by
  unfold Date.before
  infer_instance

theorem le_foldl_max (ids : List Int) (a : Int) :
    a ≤ ids.foldl max a ∧ ∀ x ∈ ids, x ≤ ids.foldl max a := by
  induction ids generalizing a with
  | nil => simp
  | cons y ys ih =>
    simp only [List.foldl_cons, List.mem_cons]
    obtain ⟨h1, h2⟩ := ih (max a y)
    refine ⟨le_trans (le_max_left a y) h1, ?_⟩
    rintro x (rfl | hx)
    · exact le_trans (le_max_right a x) h1
    · exact h2 x hx

theorem next_rowid_fresh (ids : List Int) : ∀ x ∈ ids, x ≠ Database.next_rowid ids := by
  intro x hx
  have := (le_foldl_max ids 0).2 x hx
  unfold Database.next_rowid
  omega

theorem has_overlapping_booking_eq_false (db : Database) (room_id : Int) (in_ out : String) :
    db.has_overlapping_booking room_id in_ out = false ↔
      ∀ b ∈ db.bookings, b.room_id = room_id → overlaps_range b in_ out = false := by
  unfold Database.has_overlapping_booking
  rw [List.any_eq_false]
  constructor
  · intro h b hb hr
    have := h b hb
    simpa [hr] using this
  · intro h b hb
    by_cases hr : b.room_id = room_id
    · simp [h b hb hr]
    · simp [hr]

/-- C1 (as stated, refuted): room 1 is reserved for 1 to 5 June; a request for 3 to 7 June
on room 1 overlaps it, yet `create_reservation` reports success and the ledger changes; and
two successive overlapping requests on the empty ledger both succeed. -/
theorem create_reservation_overlap_not_rejected :
    one_booking.has_overlapping_booking 1 "2024-06-03" "2024-06-07" = true ∧
    (one_booking.create_reservation 8 1 2 "2024-06-03" "2024-06-07" "paid" false).2
      = Outcome.done ∧
    (one_booking.create_reservation 8 1 2 "2024-06-03" "2024-06-07" "paid" false).1
      ≠ one_booking ∧
    (empty_ledger.create_reservation 7 1 2 "2024-06-01" "2024-06-05" "not paid" false).2
      = Outcome.done ∧
    ((empty_ledger.create_reservation 7 1 2 "2024-06-01" "2024-06-05" "not paid" false).1.create_reservation
      8 1 2 "2024-06-03" "2024-06-07" "paid" false).2 = Outcome.done := by
  decide

/-- C1 (amended): `create_reservation` runs no overlap check.  Unless the store reports a
failure, it reports success and the ledger afterwards is the old ledger followed by exactly
the requested reservation under a fresh id, with the catalog untouched, whether or not a
reservation of that room overlaps the range; on a store failure nothing changes. -/
theorem create_reservation_inserts_unchecked (db : Database) (user_id room_id guests_num : Int)
    (in_ out status : String) :
    (db.create_reservation user_id room_id guests_num in_ out status false).2 = Outcome.done ∧
    (db.create_reservation user_id room_id guests_num in_ out status false).1.rooms = db.rooms ∧
    (db.create_reservation user_id room_id guests_num in_ out status false).1.room_types
      = db.room_types ∧
    (∃ id, (∀ b ∈ db.bookings, b.booking_id ≠ id) ∧
      (db.create_reservation user_id room_id guests_num in_ out status false).1.bookings
        = db.bookings ++ [⟨id, user_id, room_id, guests_num, in_, out, status⟩]) ∧
    db.create_reservation user_id room_id guests_num in_ out status true = (db, Outcome.error) := by
  refine ⟨rfl, rfl, rfl, ⟨Database.next_rowid (db.bookings.map BookingRow.booking_id), ?_, rfl⟩, rfl⟩
  intro b hb
  exact next_rowid_fresh _ _ (List.mem_map_of_mem _ hb)

/-- C2 (as stated, refuted): the empty ledger has no overlap, and so has the ledger after a
first reservation of room 1, but after a second `create_reservation` on room 1 with an
overlapping range two reservations of room 1 overlap. -/
theorem create_reservation_breaks_no_overlap :
    NoOverlap empty_ledger ∧
    NoOverlap (empty_ledger.create_reservation 7 1 2 "2024-06-01" "2024-06-05" "paid" false).1 ∧
    ¬ NoOverlap ((empty_ledger.create_reservation 7 1 2 "2024-06-01" "2024-06-05" "paid" false).1.create_reservation
      9 1 1 "2024-06-04" "2024-06-06" "paid" false).1 := by
  decide

/-- C2 (amended): on a ledger without overlaps, `get_payment` and `delete_reservation` keep
the ledger free of overlaps for every argument, and `create_reservation` keeps it so exactly
when no stored reservation of the requested room overlaps the requested range (or the store
fails and nothing is written). -/
theorem no_overlap_preserved (db : Database) (h : NoOverlap db) :
    (∀ id fault, NoOverlap (db.get_payment id fault).1) ∧
    (∀ id fault, NoOverlap (db.delete_reservation id fault).1) ∧
    (∀ user_id room_id guests_num in_ out status,
      (NoOverlap (db.create_reservation user_id room_id guests_num in_ out status false).1 ↔
        db.has_overlapping_booking room_id in_ out = false) ∧
      NoOverlap (db.create_reservation user_id room_id guests_num in_ out status true).1) := by
  refine ⟨?_, ?_, ?_⟩
  · intro id fault
    cases fault
    · show List.Pairwise _ (db.bookings.map _)
      rw [List.pairwise_map]
      refine List.Pairwise.imp ?_ h
      intro a b hab
      by_cases ha : a.booking_id = id <;> by_cases hb : b.booking_id = id <;>
        simpa [ha, hb, overlaps_range] using hab
    · exact h
  · intro id fault
    cases fault
    · exact List.Pairwise.sublist (List.filter_sublist _) h
    · exact h
  · intro user_id room_id guests_num in_ out status
    refine ⟨?_, h⟩
    show List.Pairwise _ (db.bookings ++ [_]) ↔ _
    rw [List.pairwise_append, has_overlapping_booking_eq_false]
    constructor
    · rintro ⟨_, _, h3⟩ b hb hr
      exact h3 b hb _ (List.mem_singleton_self _) hr
    · intro h3
      refine ⟨h, List.pairwise_singleton _ _, ?_⟩
      intro a ha b hb hr
      rw [List.mem_singleton] at hb
      subst hb
      exact h3 a ha hr

/-- Witness for `no_overlap_preserved` on the sample ledger with one reservation. -/
theorem no_overlap_preserved_witness :
    NoOverlap one_booking ∧ NoOverlap (one_booking.get_payment 1 false).1 ∧
    NoOverlap (one_booking.delete_reservation 1 false).1 :=
  ⟨by decide, (no_overlap_preserved one_booking (by decide)).1 1 false,
    (no_overlap_preserved one_booking (by decide)).2.1 1 false⟩

/-! ## Grouped queries -/

theorem bare_row_mem {α : Type} (pick : List α → Nat) (g : List α) (x : α)
    (h : bare_row pick g = some x) : x ∈ g := by
  unfold bare_row at h
  exact List.getElem?_mem h

theorem bare_row_of_ne_nil {α : Type} (pick : List α → Nat) (g : List α) (h : g ≠ []) :
    ∃ x, bare_row pick g = some x := by
  have hlt : pick g % g.length < g.length := Nat.mod_lt _ (List.length_pos.2 h)
  exact ⟨g[pick g % g.length], by unfold bare_row; exact List.getElem?_eq_getElem hlt⟩

theorem mem_group_by {α κ : Type} [DecidableEq κ] (key : α → κ) (le : κ → κ → Bool)
    (rows g : List α) :
    g ∈ group_by key le rows ↔
      ∃ x ∈ rows, g = rows.filter fun y => decide (key y = key x) := by
  unfold group_by
  simp only [List.mem_map, List.mem_insertionSort, List.mem_dedup]
  constructor
  · rintro ⟨k, ⟨x, hx, rfl⟩, rfl⟩
    exact ⟨x, hx, rfl⟩
  · rintro ⟨x, hx, rfl⟩
    exact ⟨key x, ⟨x, hx, rfl⟩, rfl⟩

/-- Every output row of a grouped query comes from a group of the selected rows and from
the bare row picked in that group. -/
theorem mem_grouped {α κ β : Type} [DecidableEq κ] (key : α → κ) (le : κ → κ → Bool)
    (rows : List α) (pick : List α → Nat) (F : List α → α → β) (y : β)
    (h : y ∈ (group_by key le rows).filterMap fun g => (bare_row pick g).map (F g)) :
    ∃ x ∈ rows, ∃ z ∈ rows, key z = key x ∧
      y = F (rows.filter fun w => decide (key w = key x)) z := by
  rw [List.mem_filterMap] at h
  obtain ⟨g, hg, hy⟩ := h
  rw [mem_group_by] at hg
  obtain ⟨x, hx, rfl⟩ := hg
  rw [Option.map_eq_some'] at hy
  obtain ⟨z, hz, rfl⟩ := hy
  have hzm := bare_row_mem _ _ _ hz
  rw [List.mem_filter] at hzm
  exact ⟨x, hx, z, hzm.1, by simpa using hzm.2, rfl⟩

/-! ## Availability search -/

theorem mem_rooms_join_types (db : Database) (x : RoomRow × RoomTypeRow) :
    x ∈ db.rooms_join_types ↔
      x.1 ∈ db.rooms ∧ x.2 ∈ db.room_types ∧ x.1.type_id = x.2.type_id := by
  unfold Database.rooms_join_types
  simp only [List.mem_flatMap, List.mem_map, List.mem_filter, decide_eq_true_eq]
  constructor
  · rintro ⟨r, hr, rt, ⟨hrt, he⟩, rfl⟩
    exact ⟨hr, hrt, he⟩
  · rintro ⟨hr, hrt, he⟩
    exact ⟨x.1, hr, x.2, ⟨hrt, he⟩, rfl⟩

/-- Origin of a search result entry: a joined row of a catalog unit that is free in the
requested range and has enough capacity. -/
theorem new_search_entry_origin (db : Database) (filter : Filter)
    (pick : List (RoomRow × RoomTypeRow) → Nat) (e : Room) (he : e ∈ db.new_search filter pick) :
    ∃ r ∈ db.rooms, ∃ rt ∈ db.room_types, r.type_id = rt.type_id ∧
      e = ⟨r.room_id, rt.name, r.capacity, r.price⟩ ∧
      r.capacity ≥ filter.guests ∧
      db.has_overlapping_booking r.room_id filter.in_ filter.out = false := by
  unfold Database.new_search at he
  obtain ⟨x, _, z, hz, _, rfl⟩ := mem_grouped _ _ _ _ (fun _ x => _) e he
  rw [List.mem_filter, mem_rooms_join_types] at hz
  obtain ⟨⟨hr, hrt, hty⟩, hsel⟩ := hz
  simp only [Bool.and_eq_true, Bool.not_eq_true', decide_eq_true_eq] at hsel
  exact ⟨z.1, hr, z.2, hrt, hty, rfl, hsel.2, hsel.1⟩

/-- C3: every entry returned by `new_search` carries the id, capacity and price of a room
unit of the catalog, joined with its room type, whose capacity is at least the requested
number of guests and which has no reservation overlapping the requested range; hence never
an entry of a (type, capacity) bucket in which every unit has an overlapping reservation.
This holds for every catalog, ledger, filter and every choice of the bare row. -/
theorem new_search_entries_free (db : Database) (filter : Filter)
    (pick : List (RoomRow × RoomTypeRow) → Nat) :
    ∀ e ∈ db.new_search filter pick,
      ∃ r ∈ db.rooms, ∃ rt ∈ db.room_types, r.type_id = rt.type_id ∧
        e = ⟨r.room_id, rt.name, r.capacity, r.price⟩ ∧
        r.capacity ≥ filter.guests ∧
        (∀ b ∈ db.bookings, b.room_id = r.room_id →
          ¬ (text_lt b.date_in filter.out = true ∧ text_lt filter.in_ b.date_out = true)) ∧
        ¬ (∀ u ∈ db.rooms, u.type_id = r.type_id → u.capacity = e.capacity →
            ∃ b ∈ db.bookings, b.room_id = u.room_id ∧
              text_lt b.date_in filter.out = true ∧ text_lt filter.in_ b.date_out = true) := by
  intro e he
  obtain ⟨r, hr, rt, hrt, hty, rfl, hcap, hfree⟩ := new_search_entry_origin db filter pick e he
  rw [has_overlapping_booking_eq_false] at hfree
  have hno : ∀ b ∈ db.bookings, b.room_id = r.room_id →
      ¬ (text_lt b.date_in filter.out = true ∧ text_lt filter.in_ b.date_out = true) := by
    intro b hb hroom hov
    have := hfree b hb hroom
    simp [overlaps_range, hov.1, hov.2] at this
  refine ⟨r, hr, rt, hrt, hty, rfl, hcap, hno, ?_⟩
  intro hall
  obtain ⟨b, hb, hroom, hov⟩ := hall r hr rfl rfl
  exact hno b hb hroom hov

/-- Witness for `new_search_entries_free`: the search for 3 to 7 June in the sample ledger
returns room 2, a free unit of the bucket whose other unit, room 1, is reserved. -/
theorem new_search_entries_free_witness :
    (⟨2, "Standard", 2, 1000⟩ : Room) ∈
      one_booking.new_search ⟨"2024-06-03", "2024-06-07", 2⟩ (fun _ => 0) ∧
    ∃ r ∈ one_booking.rooms, ∃ rt ∈ one_booking.room_types, r.type_id = rt.type_id ∧
      (⟨2, "Standard", 2, 1000⟩ : Room) = ⟨r.room_id, rt.name, r.capacity, r.price⟩ ∧
      r.capacity ≥ 2 ∧
      (∀ b ∈ one_booking.bookings, b.room_id = r.room_id →
        ¬ (text_lt b.date_in "2024-06-07" = true ∧ text_lt "2024-06-03" b.date_out = true)) ∧
      ¬ (∀ u ∈ one_booking.rooms, u.type_id = r.type_id → u.capacity = 2 →
          ∃ b ∈ one_booking.bookings, b.room_id = u.room_id ∧
            text_lt b.date_in "2024-06-07" = true ∧ text_lt "2024-06-03" b.date_out = true) :=
  ⟨by decide,
    new_search_entries_free one_booking ⟨"2024-06-03", "2024-06-07", 2⟩ (fun _ => 0)
      ⟨2, "Standard", 2, 1000⟩ (by decide)⟩

/-- The keys of the output rows of a grouped query are the distinct keys of the selected
rows, each once, in ascending order. -/
theorem grouped_map_key {α κ κ' β : Type} [DecidableEq κ] (key : α → κ) (le : κ → κ → Bool)
    (rows : List α) (pick : List α → Nat) (F : List α → α → β) (kf : β → κ') (emb : κ → κ')
    (h : ∀ g, ∀ x ∈ rows, kf (F g x) = emb (key x)) :
    ((group_by key le rows).filterMap fun g => (bare_row pick g).map (F g)).map kf
      = (((rows.map key).dedup).insertionSort fun a b => le a b = true).map emb := by
  unfold group_by
  have hks : ∀ k ∈ ((rows.map key).dedup).insertionSort (fun a b => le a b = true),
      ∃ x ∈ rows, key x = k := by
    intro k hk
    rw [List.mem_insertionSort, List.mem_dedup, List.mem_map] at hk
    exact hk
  generalize ((rows.map key).dedup).insertionSort (fun a b => le a b = true) = ks at hks ⊢
  induction ks with
  | nil => rfl
  | cons k ks ih =>
    obtain ⟨x, hx, hkx⟩ := hks k (List.mem_cons_self _ _)
    have hne : rows.filter (fun y => decide (key y = k)) ≠ [] := by
      intro hnil
      have hmem : x ∈ rows.filter (fun y => decide (key y = k)) := by
        simp [List.mem_filter, hx, hkx]
      rw [hnil] at hmem
      exact List.not_mem_nil _ hmem
    obtain ⟨z, hz⟩ := bare_row_of_ne_nil pick _ hne
    have hzm := bare_row_mem _ _ _ hz
    rw [List.mem_filter] at hzm
    have hkz : key z = k := by simpa using hzm.2
    simp only [List.map_cons, List.filterMap_cons, hz, Option.map_some']
    rw [ih (fun k' hk' => hks k' (List.mem_cons_of_mem _ hk')), h _ z hzm.1, hkz]

theorem countP_eq_one_of_nodup {κ : Type} [DecidableEq κ] (l : List κ) (a : κ) (hn : l.Nodup)
    (ha : a ∈ l) : l.countP (fun x => decide (x = a)) = 1 := by
  induction l with
  | nil => exact absurd ha (List.not_mem_nil _)
  | cons b bs ih =>
    rw [List.nodup_cons] at hn
    by_cases hba : b = a
    · subst hba
      have hz : bs.countP (fun x => decide (x = b)) = 0 := by
        rw [List.countP_eq_zero]
        intro x hx
        simp only [decide_eq_true_eq]
        rintro rfl
        exact hn.1 hx
      simp [List.countP_cons, hz]
    · rcases List.mem_cons.1 ha with rfl | hmem
      · exact absurd rfl hba
      · simp [List.countP_cons, hba, ih hn.2 hmem]

theorem countP_eq_zero_of_not_mem {κ : Type} [DecidableEq κ] (l : List κ) (a : κ)
    (ha : a ∉ l) : l.countP (fun x => decide (x = a)) = 0 := by
  rw [List.countP_eq_zero]
  intro x hx
  simp only [decide_eq_true_eq]
  rintro rfl
  exact ha hx

theorem countP_key_eq_countP_map {β κ : Type} [DecidableEq κ] (l : List β) (kf : β → κ) (a : κ) :
    l.countP (fun e => decide (kf e = a)) = (l.map kf).countP (fun x => decide (x = a)) := by
  rw [List.countP_map]
  rfl

theorem grouped_keys_nodup {κ : Type} [DecidableEq κ] (le : κ → κ → Bool) (ks : List κ) :
    ((ks.dedup).insertionSort fun a b => le a b = true).Nodup :=
  (List.perm_insertionSort _ _).nodup_iff.2 (List.nodup_dedup ks)

theorem find_room_of_nodup (rooms : List RoomRow) (r : RoomRow) (hr : r ∈ rooms)
    (hn : (rooms.map RoomRow.room_id).Nodup) :
    rooms.find? (fun u => decide (u.room_id = r.room_id)) = some r := by
  induction rooms with
  | nil => exact absurd hr (List.not_mem_nil _)
  | cons u us ih =>
    rw [List.map_cons, List.nodup_cons] at hn
    rcases List.mem_cons.1 hr with rfl | hmem
    · simp
    · have hne : u.room_id ≠ r.room_id := by
        intro he
        exact hn.1 (he ▸ List.mem_map_of_mem _ hmem)
      simp [List.find?_cons, hne, ih hmem hn.2]

/-- The rows `new_search` selects before grouping: joined rows of a free room with enough
capacity. -/
theorem mem_new_search_selected (db : Database) (filter : Filter) (x : RoomRow × RoomTypeRow) :
    x ∈ (db.rooms_join_types.filter fun x =>
        !(db.has_overlapping_booking x.1.room_id filter.in_ filter.out) &&
          decide (x.1.capacity ≥ filter.guests)) ↔
      (x.1 ∈ db.rooms ∧ x.2 ∈ db.room_types ∧ x.1.type_id = x.2.type_id) ∧
        db.has_overlapping_booking x.1.room_id filter.in_ filter.out = false ∧
        x.1.capacity ≥ filter.guests := by
  rw [List.mem_filter, mem_rooms_join_types]
  simp only [Bool.and_eq_true, Bool.not_eq_true', decide_eq_true_eq]

/-- C4: on a catalog that satisfies the key constraints of the schema, the result of
`new_search` has exactly one entry for each (type, capacity) bucket that has a room unit with
capacity at least the requested one and no reservation overlapping the range, no entry for
any other bucket (so no two entries share a bucket), every entry belongs to a bucket, and the
result is empty when there is no such unit. -/
theorem new_search_one_entry_per_bucket (db : Database) (filter : Filter)
    (pick : List (RoomRow × RoomTypeRow) → Nat) (hk : db.catalog_keys_ok) :
    (∀ t c, (∃ r ∈ db.rooms, r.type_id = t ∧ r.capacity = c ∧ c ≥ filter.guests ∧
        db.has_overlapping_booking r.room_id filter.in_ filter.out = false) →
      (db.new_search filter pick).countP (fun e => decide (db.bucket_of e = some (t, c))) = 1) ∧
    (∀ t c, (¬ ∃ r ∈ db.rooms, r.type_id = t ∧ r.capacity = c ∧ c ≥ filter.guests ∧
        db.has_overlapping_booking r.room_id filter.in_ filter.out = false) →
      (db.new_search filter pick).countP (fun e => decide (db.bucket_of e = some (t, c))) = 0) ∧
    (∀ e ∈ db.new_search filter pick, ∃ t, db.bucket_of e = some (t, e.capacity)) ∧
    ((∀ r ∈ db.rooms, ¬ (r.capacity ≥ filter.guests ∧
        db.has_overlapping_booking r.room_id filter.in_ filter.out = false)) →
      db.new_search filter pick = []) := by
  obtain ⟨hpk, hfk⟩ := hk
  have hmap : (db.new_search filter pick).map db.bucket_of =
      ((((db.rooms_join_types.filter fun x =>
        !(db.has_overlapping_booking x.1.room_id filter.in_ filter.out) &&
          decide (x.1.capacity ≥ filter.guests)).map
            fun x => (x.1.type_id, x.1.capacity)).dedup).insertionSort
              fun a b => key_le a b = true).map some := by
    unfold Database.new_search
    apply grouped_map_key
    intro g x hx
    rw [mem_new_search_selected] at hx
    unfold Database.bucket_of
    simp only []
    rw [find_room_of_nodup db.rooms x.1 hx.1.1 hpk]
    rfl
  have hmem : ∀ t c, (t, c) ∈ ((((db.rooms_join_types.filter fun x =>
        !(db.has_overlapping_booking x.1.room_id filter.in_ filter.out) &&
          decide (x.1.capacity ≥ filter.guests)).map
            fun x => (x.1.type_id, x.1.capacity)).dedup).insertionSort
              fun a b => key_le a b = true) ↔
      ∃ r ∈ db.rooms, r.type_id = t ∧ r.capacity = c ∧ c ≥ filter.guests ∧
        db.has_overlapping_booking r.room_id filter.in_ filter.out = false := by
    intro t c
    rw [List.mem_insertionSort, List.mem_dedup, List.mem_map]
    constructor
    · rintro ⟨x, hx, hkey⟩
      rw [mem_new_search_selected] at hx
      simp only [Prod.mk.injEq] at hkey
      exact ⟨x.1, hx.1.1, hkey.1, hkey.2, hkey.2 ▸ hx.2.2, hx.2.1⟩
    · rintro ⟨r, hr, rfl, rfl, hcap, hfree⟩
      obtain ⟨rt, hrt, hty⟩ := hfk r hr
      exact ⟨(r, rt), (mem_new_search_selected db filter (r, rt)).2
        ⟨⟨hr, hrt, hty.symm⟩, hfree, hcap⟩, rfl⟩
  refine ⟨?_, ?_, ?_, ?_⟩
  · intro t c hex
    rw [countP_key_eq_countP_map, hmap]
    exact countP_eq_one_of_nodup _ _
      ((grouped_keys_nodup _ _).map (Option.some_injective _))
      (List.mem_map_of_mem _ ((hmem t c).2 hex))
  · intro t c hex
    rw [countP_key_eq_countP_map, hmap]
    refine countP_eq_zero_of_not_mem _ _ fun hin => hex ((hmem t c).1 ?_)
    obtain ⟨k, hk, hkeq⟩ := List.mem_map.1 hin
    exact (Option.some_injective _ hkeq) ▸ hk
  · intro e he
    obtain ⟨r, hr, rt, _, _, rfl, _⟩ := new_search_entry_origin db filter pick e he
    refine ⟨r.type_id, ?_⟩
    unfold Database.bucket_of
    simp only []
    rw [find_room_of_nodup db.rooms r hr hpk]
    rfl
  · intro hnone
    rw [List.eq_nil_iff_forall_not_mem]
    intro e he
    obtain ⟨r, hr, _, _, _, _, hcap, hfree⟩ := new_search_entry_origin db filter pick e he
    exact hnone r hr ⟨hcap, hfree⟩

/-- Witness for `new_search_one_entry_per_bucket`: in the sample ledger rooms 1 and 2 share
the bucket (type 1, capacity 2); room 1 is reserved, room 2 is free, and the search for
3 to 7 June returns exactly one entry of that bucket. -/
theorem new_search_one_entry_per_bucket_witness :
    one_booking.catalog_keys_ok ∧
    (one_booking.new_search ⟨"2024-06-03", "2024-06-07", 2⟩ (fun _ => 0)).countP
      (fun e => decide (one_booking.bucket_of e = some (1, 2))) = 1 :=
  ⟨by decide,
    (new_search_one_entry_per_bucket one_booking ⟨"2024-06-03", "2024-06-07", 2⟩ (fun _ => 0)
      (by decide)).1 1 2 ⟨⟨2, 1, 2, 1000⟩, by decide⟩⟩

/-- Every group of selected rows contributes an output row of the grouped query. -/
theorem grouped_complete {α κ β : Type} [DecidableEq κ] (key : α → κ) (le : κ → κ → Bool)
    (rows : List α) (pick : List α → Nat) (F : List α → α → β) (x : α) (hx : x ∈ rows) :
    ∃ z ∈ rows, key z = key x ∧
      F (rows.filter fun w => decide (key w = key x)) z ∈
        (group_by key le rows).filterMap fun g => (bare_row pick g).map (F g) := by
  have hne : rows.filter (fun w => decide (key w = key x)) ≠ [] := by
    intro hnil
    have hmem : x ∈ rows.filter (fun w => decide (key w = key x)) := by
      simp [List.mem_filter, hx]
    rw [hnil] at hmem
    exact List.not_mem_nil _ hmem
  obtain ⟨z, hz⟩ := bare_row_of_ne_nil pick _ hne
  have hzm := bare_row_mem _ _ _ hz
  rw [List.mem_filter] at hzm
  refine ⟨z, hzm.1, by simpa using hzm.2, ?_⟩
  rw [List.mem_filterMap]
  exact ⟨_, (mem_group_by key le rows _).2 ⟨x, hx, rfl⟩, by rw [hz]; rfl⟩

theorem overlaps_range_symm (a b : BookingRow) :
    overlaps_range a b.date_in b.date_out = overlaps_range b a.date_in a.date_out := by
  unfold overlaps_range
  exact Bool.and_comm _ _

/-- In a ledger without overlaps, a reservation is overlapped by no reservation of the same
room that has another booking id. -/
theorem no_overlap_others (db : Database) (h : NoOverlap db) (R : BookingRow)
    (hR : R ∈ db.bookings) :
    ∀ b ∈ db.bookings, b.booking_id ≠ R.booking_id → b.room_id = R.room_id →
      overlaps_range b R.date_in R.date_out = false := by
  intro b hb hid hroom
  have hsym : Symmetric fun a b : BookingRow =>
      a.room_id = b.room_id → overlaps_range a b.date_in b.date_out = false := by
    intro a c hac hca
    rw [← overlaps_range_symm]
    exact hac hca.symm
  have hne : b ≠ R := fun he => hid (he ▸ rfl)
  exact List.Pairwise.forall hsym h hb hR hne hroom

/-- C5 (as stated, refuted): two `create_reservation` calls on the empty ledger give the
ledger `double_booked`, where room 3, the only unit of its bucket, is reserved for 1 to 5 June
(id 1) and for 3 to 7 June (id 2).  After `delete_reservation 1`, the search for 1 to 5 June
with minimum capacity 2 returns no entry for room 3's bucket: the result is empty of it. -/
theorem cancel_does_not_free_double_booked_room :
    ((empty_ledger.create_reservation 7 3 2 "2024-06-01" "2024-06-05" "paid" false).1.create_reservation
      8 3 2 "2024-06-03" "2024-06-07" "paid" false).1 = double_booked ∧
    (⟨1, 7, 3, 2, "2024-06-01", "2024-06-05", "paid"⟩ : BookingRow) ∈ double_booked.bookings ∧
    (double_booked.delete_reservation 1 false).2 = Outcome.done ∧
    ∀ e ∈ (double_booked.delete_reservation 1 false).1.new_search
        ⟨"2024-06-01", "2024-06-05", 2⟩ (fun _ => 0),
      ¬ (e.type = "Lux" ∧ e.capacity = 4) := by
  decide

/-- C5 (amended): let `R` be a reservation of the ledger on room `X`, a unit of the catalog
whose room type exists, such that no reservation with another id on room `X` overlaps the
range of `R`.  After `delete_reservation R.booking_id`, `new_search` for the range of `R` and
any minimum capacity up to the capacity of `X` returns an entry of the (type, capacity)
bucket of `X`: it shows the capacity of `X`, the name of a type row of `X`, and the id and
price of a unit of that bucket. -/
theorem cancel_frees_room (db : Database) (R : BookingRow) (X : RoomRow) (rt : RoomTypeRow)
    (guests : Int) (pick : List (RoomRow × RoomTypeRow) → Nat)
    (_hR : R ∈ db.bookings) (hX : X ∈ db.rooms) (hXR : X.room_id = R.room_id)
    (hrt : rt ∈ db.room_types) (hty : X.type_id = rt.type_id) (hcap : guests ≤ X.capacity)
    (hno : ∀ b ∈ db.bookings, b.booking_id ≠ R.booking_id → b.room_id = R.room_id →
      overlaps_range b R.date_in R.date_out = false) :
    (db.delete_reservation R.booking_id false).2 = Outcome.done ∧
    ∃ e ∈ (db.delete_reservation R.booking_id false).1.new_search
        ⟨R.date_in, R.date_out, guests⟩ pick,
      ∃ u ∈ db.rooms, ∃ rt' ∈ db.room_types,
        u.type_id = X.type_id ∧ rt'.type_id = X.type_id ∧
          e = ⟨u.room_id, rt'.name, X.capacity, u.price⟩ := by
  refine ⟨rfl, ?_⟩
  have hsel : (X, rt) ∈ ((db.delete_reservation R.booking_id false).1.rooms_join_types.filter
      fun x => !((db.delete_reservation R.booking_id false).1.has_overlapping_booking
          x.1.room_id R.date_in R.date_out) && decide (x.1.capacity ≥ guests)) := by
    rw [mem_new_search_selected (db.delete_reservation R.booking_id false).1
      ⟨R.date_in, R.date_out, guests⟩ (X, rt)]
    refine ⟨⟨hX, hrt, hty⟩, ?_, hcap⟩
    rw [has_overlapping_booking_eq_false]
    intro b hb hroom
    have hb' : b ∈ db.bookings.filter fun b => decide (b.booking_id ≠ R.booking_id) := hb
    rw [List.mem_filter] at hb'
    exact hno b hb'.1 (by simpa using hb'.2) (hroom.trans hXR)
  obtain ⟨z, hz, hkey, hmem⟩ := grouped_complete (fun x => (x.1.type_id, x.1.capacity)) key_le _
    pick (fun _ x => (⟨x.1.room_id, x.2.name, x.1.capacity, x.1.price⟩ : Room)) (X, rt) hsel
  rw [mem_new_search_selected (db.delete_reservation R.booking_id false).1
      ⟨R.date_in, R.date_out, guests⟩ z] at hz
  simp only [Prod.mk.injEq] at hkey
  refine ⟨_, hmem, z.1, hz.1.1, z.2, hz.1.2.1, hkey.1, hz.1.2.2 ▸ hkey.1, ?_⟩
  rw [hkey.2]

/-- Witness for `cancel_frees_room`: the only reservation of the sample ledger, on room 1. -/
theorem cancel_frees_room_witness :
    (one_booking.delete_reservation 1 false).2 = Outcome.done ∧
    ∃ e ∈ (one_booking.delete_reservation 1 false).1.new_search
        ⟨"2024-06-01", "2024-06-05", 2⟩ (fun _ => 0),
      ∃ u ∈ one_booking.rooms, ∃ rt' ∈ one_booking.room_types,
        u.type_id = 1 ∧ rt'.type_id = 1 ∧ e = ⟨u.room_id, rt'.name, 2, u.price⟩ :=
  cancel_frees_room one_booking ⟨1, 7, 1, 2, "2024-06-01", "2024-06-05", "not paid"⟩
    ⟨1, 1, 2, 1000⟩ ⟨1, "Standard"⟩ 2 (fun _ => 0) (by decide) (by decide) rfl (by decide) rfl
    (by decide) (no_overlap_others one_booking (by decide) _ (by decide))

/-! ## Report -/

theorem price_times_nights_of_iJD (price : ℚ) (date_in date_out : String) (a b : Int)
    (hi : iJD date_in = some a) (ho : iJD date_out = some b) :
    price_times_nights price date_in date_out = price * (((b - a : Int) : ℚ) / 86400000) := by
  simp only [price_times_nights, JULIANDAY, hi, ho]
  push_cast
  ring

/-- C6 (the code at the failing input): for the ledger `two_paid` and the window 1 to 30 June
2024 the report has the single line `paid` with count 2, and its amount is `SUM(price)`,
1500, times the nights of the one bare row: 3000 or 4500 depending on the row the engine
picks, never the sum 2 * 1000 + 3 * 500 = 3500 of the reservations' own totals. -/
theorem report_amount_two_paid (pick : List (BookingRow × RoomRow) → Nat) :
    (two_paid.get_report_by_dates ⟨"2024-06-01", "2024-06-30", 0⟩ pick
        = [⟨2, 3000, "paid"⟩] ∨
      two_paid.get_report_by_dates ⟨"2024-06-01", "2024-06-30", 0⟩ pick
        = [⟨2, 4500, "paid"⟩]) ∧
    two_paid.get_report_by_dates ⟨"2024-06-01", "2024-06-30", 0⟩ pick
        ≠ [⟨2, 3500, "paid"⟩] := by
  have hg : group_by (fun x : BookingRow × RoomRow => x.1.status) text_le
      (two_paid.bookings_join_rooms.filter fun x =>
        text_le "2024-06-01" x.1.date_in && text_le x.1.date_out "2024-06-30")
      = [[(⟨1, 7, 1, 2, "2024-06-01", "2024-06-03", "paid"⟩, ⟨1, 1, 2, 1000⟩),
          (⟨2, 8, 3, 2, "2024-06-10", "2024-06-13", "paid"⟩, ⟨3, 2, 4, 500⟩)]] := by
    decide
  have h1 : price_times_nights 1500 "2024-06-01" "2024-06-03" = 3000 := by
    rw [price_times_nights_of_iJD 1500 "2024-06-01" "2024-06-03" 212583960000000 212584132800000
      (by decide) (by decide)]
    norm_num
  have h2 : price_times_nights 1500 "2024-06-10" "2024-06-13" = 4500 := by
    rw [price_times_nights_of_iJD 1500 "2024-06-10" "2024-06-13" 212584737600000 212584996800000
      (by decide) (by decide)]
    norm_num
  have hs : ((1000 : ℚ) + 500) = 1500 := by norm_num
  have hrep : two_paid.get_report_by_dates ⟨"2024-06-01", "2024-06-30", 0⟩ pick
        = [⟨2, 3000, "paid"⟩] ∨
      two_paid.get_report_by_dates ⟨"2024-06-01", "2024-06-30", 0⟩ pick
        = [⟨2, 4500, "paid"⟩] := by
    unfold Database.get_report_by_dates
    simp only [hg, List.filterMap_cons, List.filterMap_nil, bare_row, List.length_cons,
      List.length_nil]
    rcases Nat.mod_two_eq_zero_or_one
      (pick [(⟨1, 7, 1, 2, "2024-06-01", "2024-06-03", "paid"⟩, ⟨1, 1, 2, 1000⟩),
          (⟨2, 8, 3, 2, "2024-06-10", "2024-06-13", "paid"⟩, ⟨3, 2, 4, 500⟩)]) with h | h
    · left
      simp [h, hs, h1]
    · right
      simp [h, hs, h2]
  refine ⟨hrep, ?_⟩
  rcases hrep with h | h <;> rw [h] <;> decide

theorem filter_room_id_singleton (rooms : List RoomRow) (k : Int)
    (hn : (rooms.map RoomRow.room_id).Nodup) (hex : ∃ r ∈ rooms, r.room_id = k) :
    ∃ r, rooms.filter (fun r => decide (k = r.room_id)) = [r] := by
  induction rooms with
  | nil =>
    obtain ⟨r, hr, _⟩ := hex
    exact absurd hr (List.not_mem_nil _)
  | cons u us ih =>
    rw [List.map_cons, List.nodup_cons] at hn
    by_cases hu : k = u.room_id
    · subst hu
      refine ⟨u, ?_⟩
      have hrest : us.filter (fun r => decide (u.room_id = r.room_id)) = [] := by
        rw [List.filter_eq_nil_iff]
        intro r hr
        simp only [decide_eq_true_eq]
        intro hk
        exact hn.1 (List.mem_map.2 ⟨r, hr, hk.symm⟩)
      rw [List.filter_cons_of_pos (by simp), hrest]
    · obtain ⟨r, hr, hrk⟩ := hex
      rcases List.mem_cons.1 hr with rfl | hmem
      · exact absurd hrk.symm hu
      · obtain ⟨r', hr'⟩ := ih hn.2 ⟨r, hmem, hrk⟩
        exact ⟨r', by simp [List.filter_cons, hu, hr']⟩

theorem join_rooms_map_fst (rooms : List RoomRow) (hn : (rooms.map RoomRow.room_id).Nodup)
    (bs : List BookingRow) (hfk : ∀ b ∈ bs, ∃ r ∈ rooms, r.room_id = b.room_id) :
    (bs.flatMap fun b =>
      (rooms.filter fun r => decide (b.room_id = r.room_id)).map fun r => (b, r)).map Prod.fst
      = bs := by
  induction bs with
  | nil => rfl
  | cons b bs ih =>
    obtain ⟨r, hr⟩ := filter_room_id_singleton rooms b.room_id hn
      (hfk b (List.mem_cons_self _ _))
    rw [List.flatMap_cons, List.map_append, ih fun b' hb' => hfk b' (List.mem_cons_of_mem _ hb'),
      hr]
    rfl

/-- Under the key constraints each reservation occurs exactly once in the join with `rooms`,
so counting joined rows by a condition on the reservation counts reservations. -/
theorem join_rooms_count (db : Database) (hk : db.booking_keys_ok) (p : BookingRow → Bool) :
    (db.bookings_join_rooms.filter fun x => p x.1).length = (db.bookings.filter p).length := by
  have hfst := join_rooms_map_fst db.rooms hk.1 db.bookings hk.2
  have hlen : (db.bookings.filter p).length
      = ((db.bookings_join_rooms.map Prod.fst).filter p).length := by
    unfold Database.bookings_join_rooms
    rw [hfst]
  rw [hlen, List.filter_map, List.length_map]
  rfl

theorem mem_bookings_join_rooms (db : Database) (x : BookingRow × RoomRow) :
    x ∈ db.bookings_join_rooms ↔
      x.1 ∈ db.bookings ∧ x.2 ∈ db.rooms ∧ x.1.room_id = x.2.room_id := by
  unfold Database.bookings_join_rooms
  simp only [List.mem_flatMap, List.mem_map, List.mem_filter, decide_eq_true_eq]
  constructor
  · rintro ⟨b, hb, r, ⟨hr, he⟩, rfl⟩
    exact ⟨hb, hr, he⟩
  · rintro ⟨hb, hr, he⟩
    exact ⟨x.1, hb, x.2, ⟨hr, he⟩, rfl⟩

/-- C7: on a store that satisfies the key constraints of the schema, `get_report_by_dates`
emits one line per distinct stored status among the reservations with `date_in >= filter.in`
and `date_out <= filter.out` (no status twice, no other status), the count of a line is the
number of those reservations with the line's status (a reservation that is not contained in
the window is not counted), and there is no line at all exactly when no reservation is
contained in the window. -/
theorem report_counts_contained (db : Database) (filter : Filter)
    (pick : List (BookingRow × RoomRow) → Nat) (hk : db.booking_keys_ok) :
    ((db.get_report_by_dates filter pick).map ReportRow.status).Nodup ∧
    (∀ s, s ∈ (db.get_report_by_dates filter pick).map ReportRow.status ↔
      ∃ b ∈ db.bookings, text_le filter.in_ b.date_in = true ∧
        text_le b.date_out filter.out = true ∧ b.status = s) ∧
    (∀ row ∈ db.get_report_by_dates filter pick,
      row.count = ((db.bookings.filter fun b =>
        (text_le filter.in_ b.date_in && text_le b.date_out filter.out) &&
          decide (b.status = row.status)).length : Int)) ∧
    (db.get_report_by_dates filter pick = [] ↔
      ∀ b ∈ db.bookings, ¬ (text_le filter.in_ b.date_in = true ∧
        text_le b.date_out filter.out = true)) := by
  have hsel : ∀ x : BookingRow × RoomRow,
      x ∈ (db.bookings_join_rooms.filter fun x =>
        text_le filter.in_ x.1.date_in && text_le x.1.date_out filter.out) ↔
      (x.1 ∈ db.bookings ∧ x.2 ∈ db.rooms ∧ x.1.room_id = x.2.room_id) ∧
        text_le filter.in_ x.1.date_in = true ∧ text_le x.1.date_out filter.out = true := by
    intro x
    rw [List.mem_filter, mem_bookings_join_rooms, Bool.and_eq_true]
  have hmap : (db.get_report_by_dates filter pick).map ReportRow.status =
      ((((db.bookings_join_rooms.filter fun x =>
        text_le filter.in_ x.1.date_in && text_le x.1.date_out filter.out).map
          fun x => x.1.status).dedup).insertionSort fun a b => text_le a b = true).map id := by
    unfold Database.get_report_by_dates
    apply grouped_map_key
    intro g x _
    rfl
  rw [List.map_id] at hmap
  have hmem : ∀ s, s ∈ (db.get_report_by_dates filter pick).map ReportRow.status ↔
      ∃ b ∈ db.bookings, text_le filter.in_ b.date_in = true ∧
        text_le b.date_out filter.out = true ∧ b.status = s := by
    intro s
    rw [hmap, List.mem_insertionSort, List.mem_dedup, List.mem_map]
    constructor
    · rintro ⟨x, hx, rfl⟩
      rw [hsel] at hx
      exact ⟨x.1, hx.1.1, hx.2.1, hx.2.2, rfl⟩
    · rintro ⟨b, hb, h1, h2, rfl⟩
      obtain ⟨r, hr, hrb⟩ := hk.2 b hb
      exact ⟨(b, r), (hsel (b, r)).2 ⟨⟨hb, hr, hrb.symm⟩, h1, h2⟩, rfl⟩
  refine ⟨?_, hmem, ?_, ?_⟩
  · rw [hmap]
    exact grouped_keys_nodup _ _
  · intro row hrow
    unfold Database.get_report_by_dates at hrow
    obtain ⟨x, _, z, _, hkey, rfl⟩ := mem_grouped _ _ _ _ _ row hrow
    have hcount : ∀ s : String,
        ((db.bookings_join_rooms.filter fun x =>
          text_le filter.in_ x.1.date_in && text_le x.1.date_out filter.out).filter
            fun w => decide (w.1.status = s)).length
        = (db.bookings.filter fun b =>
            (text_le filter.in_ b.date_in && text_le b.date_out filter.out) &&
              decide (b.status = s)).length := by
      intro s
      rw [List.filter_filter, join_rooms_count db hk fun b =>
        decide (b.status = s) && (text_le filter.in_ b.date_in && text_le b.date_out filter.out)]
      congr 2
      funext b
      exact Bool.and_comm _ _
    simp only [hkey]
    exact congrArg Nat.cast (hcount x.1.status)
  · constructor
    · intro hnil b hb hc
      have hin := (hmem b.status).2 ⟨b, hb, hc.1, hc.2, rfl⟩
      rw [hnil] at hin
      exact List.not_mem_nil _ hin
    · intro hnone
      rw [List.eq_nil_iff_forall_not_mem]
      intro row hrow
      obtain ⟨b, hb, h1, h2, _⟩ := (hmem row.status).1 (List.mem_map_of_mem _ hrow)
      exact hnone b hb ⟨h1, h2⟩

/-- Witness for `report_counts_contained`: in the ledger `two_paid` the window 1 to 12 June
contains the first reservation only (the second ends on 13 June), and the report has the
single line `paid` with count 1. -/
theorem report_counts_contained_witness :
    two_paid.booking_keys_ok ∧
    ∀ row ∈ two_paid.get_report_by_dates ⟨"2024-06-01", "2024-06-12", 0⟩ (fun _ => 0),
      row.count = ((two_paid.bookings.filter fun b =>
        (text_le "2024-06-01" b.date_in && text_le b.date_out "2024-06-12") &&
          decide (b.status = row.status)).length : Int) :=
  ⟨by decide,
    (report_counts_contained two_paid ⟨"2024-06-01", "2024-06-12", 0⟩ (fun _ => 0)
      (by decide)).2.2.1⟩

/-! ## Status filter and listings -/

theorem JULIANDAY_of_iJD (s : String) (i : Int) (h : iJD s = some i) :
    JULIANDAY s = some ((i : ℚ) / 86400000) := by
  simp only [JULIANDAY, h]

theorem status_condition_active_iff (date_in date_out : String) (a b now : ℚ)
    (hi : JULIANDAY date_in = some a) (ho : JULIANDAY date_out = some b) :
    status_condition ReservationStatus.ACTIVE date_in date_out now = true ↔
      a ≤ now ∧ now ≤ b := by
  simp only [status_condition, hi, ho, decide_eq_true_eq, Bool.and_eq_true, ge_iff_le]

/-- The rows of a listing: the joined rows that pass the user condition and the status
condition, turned into `Reservation` objects. -/
theorem mem_get_reservations_by_status (db : Database) (status : ReservationStatus)
    (user_id : Int) (now : ℚ) (res : Reservation) :
    res ∈ db.get_reservations_by_status status user_id now ↔
      ∃ b ∈ db.bookings, ∃ r ∈ db.rooms, b.room_id = r.room_id ∧
        (user_id = 12 ∨ b.user_id = user_id) ∧
        status_condition status b.date_in b.date_out now = true ∧
        res = ⟨b.booking_id, b.user_id, b.room_id, b.guests_num, b.date_in, b.date_out,
          price_times_nights r.price b.date_in b.date_out, b.status⟩ := by
  unfold Database.get_reservations_by_status
  simp only [List.mem_map, List.mem_insertionSort, List.mem_filter, mem_bookings_join_rooms,
    Bool.and_eq_true]
  constructor
  · rintro ⟨x, ⟨⟨hb, hr, hbr⟩, hu, hs⟩, rfl⟩
    refine ⟨x.1, hb, x.2, hr, hbr, ?_, hs, rfl⟩
    by_cases h12 : user_id = 12
    · exact Or.inl h12
    · right
      simpa [h12] using hu
  · rintro ⟨b, hb, r, hr, hbr, hu, hs, rfl⟩
    refine ⟨(b, r), ⟨⟨hb, hr, hbr⟩, ?_, hs⟩, rfl⟩
    by_cases h12 : user_id = 12
    · simp [h12]
    · rcases hu with hu | hu
      · exact absurd hu h12
      · simp [h12, hu]

/-- C9 (as stated, refuted): in the sample ledger guest 7 holds a reservation that is active
on 2 June 2024 at noon (Julian day 2460464).  The user with id 12 and role `guest` receives
it in the listing of active reservations, although it belongs to another guest; the user
with id 5 and role `admin` receives nothing. -/
theorem listing_bypass_is_by_user_id :
    (∃ l, BookingSystem.reservations one_booking ⟨12, "ivan", "Ivan", "Petrov", "guest"⟩ 1 2460464
        = some l ∧ ∃ res ∈ l, res.guest_id = 7 ∧ res.guest_id ≠ 12) ∧
    (∃ l, BookingSystem.reservations one_booking ⟨5, "root", "Anna", "Orlova", "admin"⟩ 1 2460464
        = some l ∧ ∀ res ∈ l, res.guest_id ≠ 7) := by
  have hact : status_condition ReservationStatus.ACTIVE "2024-06-01" "2024-06-05" 2460464
      = true :=
    (status_condition_active_iff "2024-06-01" "2024-06-05" _ _ 2460464
      (JULIANDAY_of_iJD _ 212583960000000 (by decide))
      (JULIANDAY_of_iJD _ 212584305600000 (by decide))).2 (by norm_num)
  refine ⟨⟨_, rfl, ?_⟩, ⟨_, rfl, ?_⟩⟩
  · refine ⟨⟨1, 7, 1, 2, "2024-06-01", "2024-06-05",
      price_times_nights 1000 "2024-06-01" "2024-06-05", "not paid"⟩, ?_, rfl, by decide⟩
    rw [mem_get_reservations_by_status]
    exact ⟨⟨1, 7, 1, 2, "2024-06-01", "2024-06-05", "not paid"⟩, by decide, ⟨1, 1, 2, 1000⟩,
      by decide, rfl, Or.inl rfl, hact, rfl⟩
  · intro res hres
    rw [mem_get_reservations_by_status] at hres
    obtain ⟨b, _, r, _, _, hu, _, rfl⟩ := hres
    rcases hu with hu | hu
    · exact absurd hu (by decide)
    · show b.user_id ≠ 7
      rw [hu]
      decide

/-- C9 (amended): `BookingSystem::reservations` always queries with the id of the requesting
user, and the listing for a status holds exactly the reservations (joined with their room)
that match the status and, unless the requesting user's id is 12, whose guest id equals the
requesting user's id.  The role of the user plays no part: with id 12 the reservations of
all guests are returned, with any other id only the user's own. -/
theorem listing_filter_by_user_id (db : Database) (user : User) (now : ℚ) :
    BookingSystem.reservations db user 1 now
      = some (db.get_reservations_by_status ReservationStatus.ACTIVE user.user_id now) ∧
    BookingSystem.reservations db user 2 now
      = some (db.get_reservations_by_status ReservationStatus.OVER user.user_id now) ∧
    BookingSystem.reservations db user 3 now
      = some (db.get_reservations_by_status ReservationStatus.NOT_STARTED user.user_id now) ∧
    (∀ status res, res ∈ db.get_reservations_by_status status user.user_id now ↔
      ∃ b ∈ db.bookings, ∃ r ∈ db.rooms, b.room_id = r.room_id ∧
        (user.user_id = 12 ∨ b.user_id = user.user_id) ∧
        status_condition status b.date_in b.date_out now = true ∧
        res = ⟨b.booking_id, b.user_id, b.room_id, b.guests_num, b.date_in, b.date_out,
          price_times_nights r.price b.date_in b.date_out, b.status⟩) ∧
    (user.user_id ≠ 12 →
      ∀ status, ∀ res ∈ db.get_reservations_by_status status user.user_id now,
        res.guest_id = user.user_id) := by
  refine ⟨rfl, rfl, rfl, fun status res => mem_get_reservations_by_status db status _ now res,
    ?_⟩
  intro h12 status res hres
  rw [mem_get_reservations_by_status] at hres
  obtain ⟨b, _, r, _, _, hu, _, rfl⟩ := hres
  rcases hu with hu | hu
  · exact absurd hu h12
  · exact hu

/-- Witness for `listing_filter_by_user_id`: guest 7 of the sample ledger sees only
reservations of guest 7. -/
theorem listing_filter_by_user_id_witness :
    (7 : Int) ≠ 12 ∧
    ∀ res ∈ one_booking.get_reservations_by_status ReservationStatus.ACTIVE 7 2460464,
      res.guest_id = 7 :=
  ⟨by decide,
    (listing_filter_by_user_id one_booking ⟨7, "olga", "Olga", "Sidorova", "guest"⟩
      2460464).2.2.2.2 (by decide) ReservationStatus.ACTIVE⟩

/-! ## Payment and cancellation of a missing reservation -/

/-- C10 (as stated, refuted): no reservation of the sample ledger has id 99, yet
`get_payment 99` and `delete_reservation 99` both finish with the confirmation message, the
same outcome as for a reservation that exists. -/
theorem missing_id_reports_success :
    (∀ b ∈ one_booking.bookings, b.booking_id ≠ 99) ∧
    (one_booking.get_payment 99 false).2 = Outcome.done ∧
    (one_booking.delete_reservation 99 false).2 = Outcome.done ∧
    (one_booking.get_payment 1 false).2 = Outcome.done ∧
    (one_booking.delete_reservation 1 false).2 = Outcome.done := by
  decide

/-- C10 (amended): unless the store fails, `get_payment` and `delete_reservation` print the
confirmation for every id, in the ledger or not; with an id that is not in the ledger they
leave the ledger unchanged, and with an id that is in the ledger `delete_reservation` removes
every row with that id and `get_payment` leaves every row with that id `paid`. -/
theorem payment_and_delete_outcome (db : Database) (id : Int) :
    (db.get_payment id false).2 = Outcome.done ∧
    (db.delete_reservation id false).2 = Outcome.done ∧
    ((∀ b ∈ db.bookings, b.booking_id ≠ id) →
      (db.get_payment id false).1 = db ∧ (db.delete_reservation id false).1 = db) ∧
    (∀ b ∈ (db.delete_reservation id false).1.bookings, b.booking_id ≠ id) ∧
    (∀ b ∈ (db.get_payment id false).1.bookings, b.booking_id = id → b.status = "paid") := by
  refine ⟨rfl, rfl, ?_, ?_, ?_⟩
  · intro h
    constructor
    · show ({ db with bookings := db.bookings.map _ } : Database) = db
      have hmap : (db.bookings.map fun b =>
          if b.booking_id = id then { b with status := "paid" } else b) = db.bookings := by
        conv_rhs => rw [← List.map_id db.bookings]
        apply List.map_congr_left
        intro b hb
        simp [h b hb]
      rw [hmap]
    · show ({ db with bookings := db.bookings.filter _ } : Database) = db
      have hfil : (db.bookings.filter fun b => decide (b.booking_id ≠ id)) = db.bookings := by
        rw [List.filter_eq_self]
        intro b hb
        simpa using h b hb
      rw [hfil]
  · intro b hb
    have hb' : b ∈ db.bookings.filter fun b => decide (b.booking_id ≠ id) := hb
    rw [List.mem_filter] at hb'
    simpa using hb'.2
  · intro b hb hid
    have hb' : b ∈ db.bookings.map fun b =>
        if b.booking_id = id then { b with status := "paid" } else b := hb
    rw [List.mem_map] at hb'
    obtain ⟨c, _, rfl⟩ := hb'
    by_cases hc : c.booking_id = id
    · simp [hc]
    · rw [if_neg hc] at hid
      exact absurd hid hc

/-- Witness for `payment_and_delete_outcome`: id 99 is not in the sample ledger, and both
calls leave the ledger as it was. -/
theorem payment_and_delete_outcome_witness :
    (∀ b ∈ one_booking.bookings, b.booking_id ≠ 99) ∧
    (one_booking.get_payment 99 false).1 = one_booking ∧
    (one_booking.delete_reservation 99 false).1 = one_booking :=
  ⟨by decide, (payment_and_delete_outcome one_booking 99).2.2.1 (by decide)⟩

/-! ## Payment update: frame -/

/-- C11: `get_payment` changes nothing but the payment status of the targeted reservation.
The catalog is untouched, the list of reservation ids is unchanged, and position by position
every reservation keeps its id, guest, room, guest count, `date_in` and `date_out`; a
reservation with the given id ends with status `paid`, and every other reservation is
identical to before.  On a store failure nothing changes at all. -/
theorem get_payment_frame (db : Database) (id : Int) :
    (db.get_payment id false).1.rooms = db.rooms ∧
    (db.get_payment id false).1.room_types = db.room_types ∧
    (db.get_payment id false).1.bookings.map BookingRow.booking_id
      = db.bookings.map BookingRow.booking_id ∧
    List.Forall₂ (fun b b' : BookingRow =>
        b'.booking_id = b.booking_id ∧ b'.user_id = b.user_id ∧ b'.room_id = b.room_id ∧
        b'.guests_num = b.guests_num ∧ b'.date_in = b.date_in ∧ b'.date_out = b.date_out ∧
        (b.booking_id = id → b'.status = "paid") ∧ (b.booking_id ≠ id → b' = b))
      db.bookings (db.get_payment id false).1.bookings ∧
    (db.get_payment id true).1 = db := by
  refine ⟨rfl, rfl, ?_, ?_, rfl⟩
  · show (db.bookings.map _).map BookingRow.booking_id = _
    rw [List.map_map]
    apply List.map_congr_left
    intro b _
    by_cases hb : b.booking_id = id <;> simp [hb]
  · show List.Forall₂ _ db.bookings (db.bookings.map _)
    rw [List.forall₂_map_right_iff]
    apply List.forall₂_same.2
    intro b _
    by_cases hb : b.booking_id = id <;> simp [hb]

/-! ## Calendar: parsing -/

theorem isDigit_iff (c : Char) : c.isDigit = true ↔ 48 ≤ c.toNat ∧ c.toNat ≤ 57 := by
  unfold Char.isDigit Char.toNat
  simp only [Bool.and_eq_true, decide_eq_true_eq, ge_iff_le, UInt32.le_def, Fin.le_def]
  rfl

theorem month_group_bounds (cs : List Char) (h : date.month_group cs = true) :
    1 ≤ date.stoi cs ∧ date.stoi cs ≤ 12 := by
  unfold date.month_group at h
  split at h
  · simp only [Bool.and_eq_true, decide_eq_true_eq] at h
    simp only [date.stoi, List.foldl_cons, List.foldl_nil]
    omega
  · simp only [Bool.and_eq_true, Bool.or_eq_true, decide_eq_true_eq] at h
    simp only [date.stoi, List.foldl_cons, List.foldl_nil]
    rcases h with ⟨⟨rfl, _⟩, _⟩ | ⟨⟨rfl, _⟩, _⟩
    · have : ('0' : Char).toNat = 48 := rfl
      omega
    · have : ('1' : Char).toNat = 49 := rfl
      omega
  · exact absurd h (by simp)

theorem day_group_bounds (cs : List Char) (h : date.day_group cs = true) :
    1 ≤ date.stoi cs ∧ date.stoi cs ≤ 31 := by
  unfold date.day_group at h
  split at h
  · simp only [Bool.and_eq_true, decide_eq_true_eq] at h
    simp only [date.stoi, List.foldl_cons, List.foldl_nil]
    omega
  · simp only [Bool.and_eq_true, Bool.or_eq_true, decide_eq_true_eq, isDigit_iff] at h
    simp only [date.stoi, List.foldl_cons, List.foldl_nil]
    have h0 : ('0' : Char).toNat = 48 := rfl
    have h1 : ('1' : Char).toNat = 49 := rfl
    have h2 : ('2' : Char).toNat = 50 := rfl
    have h3 : ('3' : Char).toNat = 51 := rfl
    rcases h with (⟨⟨rfl, _⟩, _⟩ | ⟨rfl | rfl, _, _⟩) | ⟨rfl, rfl | rfl⟩ <;> omega
  · exact absurd h (by simp)

theorem match_tail_some (m rest m' d : List Char) (h : date.match_tail m rest = some (m', d)) :
    m' = m ∧ date.month_group m = true ∧ date.day_group d = true ∧
      ∃ s2, rest = s2 :: d ∧ s2.isDigit = false := by
  unfold date.match_tail at h
  split at h
  · split_ifs at h with hc
    simp only [Option.some.injEq, Prod.mk.injEq] at h
    simp only [Bool.and_eq_true, Bool.not_eq_true'] at hc
    obtain ⟨rfl, rfl⟩ := h
    exact ⟨rfl, hc.1.1, hc.2, _, rfl, hc.1.2⟩
  · exact absurd h (by simp)

/-- Shape of a text matched by the date pattern: four digits, a non-digit, a month group, a
non-digit and a day group. -/
theorem regex_match_date_some (s y m d : List Char)
    (h : date.regex_match_date s = some (y, m, d)) :
    date.month_group m = true ∧ date.day_group d = true ∧
      ∃ y1 y2 y3 y4 s1 s2, y = [y1, y2, y3, y4] ∧ s = y ++ s1 :: (m ++ s2 :: d) ∧
        y1.isDigit = true ∧ y2.isDigit = true ∧ y3.isDigit = true ∧ y4.isDigit = true ∧
        s1.isDigit = false ∧ s2.isDigit = false := by
  unfold date.regex_match_date at h
  split at h
  · rename_i y1 y2 y3 y4 s1 m1 m2 more
    split_ifs at h with hc
    simp only [Bool.and_eq_true, Bool.not_eq_true'] at hc
    obtain ⟨⟨⟨⟨h1, h2⟩, h3⟩, h4⟩, h5⟩ := hc
    cases hm : (date.match_tail [m1] (m2 :: more)).orElse fun _ => date.match_tail [m1, m2] more with
    | none => rw [hm] at h; exact absurd h (by simp)
    | some md =>
      obtain ⟨m', d'⟩ := md
      rw [hm] at h
      simp only [Option.some.injEq, Prod.mk.injEq] at h
      obtain ⟨rfl, rfl, rfl⟩ := h
      cases ht : date.match_tail [m1] (m2 :: more) with
      | some md1 =>
        rw [ht] at hm
        simp only [Option.orElse, Option.some.injEq] at hm
        subst hm
        obtain ⟨rfl, hmg, hdg, s2, hrest, hs2⟩ := match_tail_some _ _ _ _ ht
        simp only [List.cons.injEq] at hrest
        obtain ⟨rfl, rfl⟩ := hrest
        exact ⟨hmg, hdg, y1, y2, y3, y4, s1, m2, rfl, rfl, h1, h2, h3, h4, h5, hs2⟩
      | none =>
        rw [ht] at hm
        simp only [Option.orElse] at hm
        obtain ⟨rfl, hmg, hdg, s2, hrest, hs2⟩ := match_tail_some _ _ _ _ hm
        subst hrest
        exact ⟨hmg, hdg, y1, y2, y3, y4, s1, s2, rfl, rfl, h1, h2, h3, h4, h5, hs2⟩
  · exact absurd h (by simp)

theorem days_in_month_table (year month : Int) (h1 : 1 ≤ month) (h12 : month ≤ 12) :
    ([31, if date.is_year_leap year then 29 else 28, 31, 30, 31, 30, 31, 31, 30, 31, 30, 31] :
      List Int).getD (month - 1).toNat 0 = calendar_days year month := by
  have hleap : date.is_year_leap year = true ↔
      ((year % 4 = 0 ∧ year % 100 ≠ 0) ∨ year % 400 = 0) := by
    simp [date.is_year_leap]
  unfold calendar_days
  interval_cases month <;> simp [hleap]

/-- C12: `parse_date` is sound.  A returned date has its year in 2001..2099, its month in
1..12 and its day between 1 and the true number of days of that month in that year; a text
whose year group lies outside 2001..2099 is rejected, and so are `2024-02-30` and
`2023-02-29`. -/
theorem parse_date_sound :
    (∀ s d, date.parse_date s = some d →
      2001 ≤ d.year ∧ d.year ≤ 2099 ∧ 1 ≤ d.month ∧ d.month ≤ 12 ∧
        1 ≤ d.day ∧ d.day ≤ calendar_days d.year d.month) ∧
    (∀ s y m d, date.regex_match_date s.toList = some (y, m, d) →
      (date.stoi y < 2001 ∨ date.stoi y > 2099) → date.parse_date s = none) ∧
    date.parse_date "2024-02-30" = none ∧
    date.parse_date "2023-02-29" = none := by
  refine ⟨?_, ?_, by decide, by decide⟩
  · intro s d h
    unfold date.parse_date at h
    split at h
    · exact absurd h (by simp)
    · rename_i y m dd hre
      obtain ⟨hmg, hdg, _⟩ := regex_match_date_some _ _ _ _ hre
      have hm := month_group_bounds m hmg
      have hd := day_group_bounds dd hdg
      simp only [] at h
      rw [days_in_month_table _ _ hm.1 hm.2] at h
      by_cases hy : date.stoi y < 2001 ∨ date.stoi y > 2099
      · rw [if_pos hy] at h
        exact absurd h (by simp)
      · rw [if_neg hy] at h
        by_cases hday : date.stoi dd > calendar_days (date.stoi y) (date.stoi m)
        · rw [if_pos hday] at h
          exact absurd h (by simp)
        · rw [if_neg hday] at h
          simp only [Option.some.injEq] at h
          subst h
          simp only []
          omega
  · intro s y m d hre hy
    unfold date.parse_date
    rw [hre]
    simp only []
    rw [if_pos hy]

/-- Witness for `parse_date_sound`: 29 February 2024 is parsed, and its day is within the 29
days of February 2024. -/
theorem parse_date_sound_witness :
    date.parse_date "2024-02-29" = some ⟨29, 2, 2024⟩ ∧
    (2001 : Int) ≤ 2024 ∧ (2024 : Int) ≤ 2099 ∧ (1 : Int) ≤ 2 ∧ (2 : Int) ≤ 12 ∧
      (1 : Int) ≤ 29 ∧ (29 : Int) ≤ calendar_days 2024 2 :=
  ⟨by decide, parse_date_sound.1 "2024-02-29" ⟨29, 2, 2024⟩ (by decide)⟩

theorem digit_char_toNat (k : Nat) (h : k < 10) : (date.digit_char k).toNat = 48 + k := by
  interval_cases k <;> rfl

theorem digit_char_isDigit (k : Nat) (h : k < 10) : (date.digit_char k).isDigit = true := by
  interval_cases k <;> rfl

theorem two_digits_month (m : Int) (h1 : 1 ≤ m) (h12 : m ≤ 12) :
    date.month_group (two_digits m) = true ∧ date.stoi (two_digits m) = m := by
  interval_cases m <;> decide

theorem two_digits_day (d : Int) (h1 : 1 ≤ d) (h31 : d ≤ 31) :
    date.day_group (two_digits d) = true ∧ date.stoi (two_digits d) = d := by
  interval_cases d <;> decide

theorem stoi_four_digits (y : Int) (h0 : 0 ≤ y) (h : y ≤ 9999) :
    date.stoi (four_digits y) = y := by
  obtain ⟨k, rfl⟩ := Int.eq_ofNat_of_zero_le h0
  have hk : k ≤ 9999 := by omega
  simp only [date.stoi, four_digits, Int.toNat_ofNat, List.foldl_cons, List.foldl_nil]
  rw [digit_char_toNat _ (by omega), digit_char_toNat _ (by omega),
    digit_char_toNat _ (by omega), digit_char_toNat _ (by omega)]
  push_cast
  omega

theorem regex_match_date_ten (y1 y2 y3 y4 s1 m1 m2 s2 d1 d2 : Char)
    (h1 : y1.isDigit = true) (h2 : y2.isDigit = true) (h3 : y3.isDigit = true)
    (h4 : y4.isDigit = true) (hs1 : s1.isDigit = false) (hm2 : m2.isDigit = true)
    (hs2 : s2.isDigit = false) (hmg : date.month_group [m1, m2] = true)
    (hdg : date.day_group [d1, d2] = true) :
    date.regex_match_date [y1, y2, y3, y4, s1, m1, m2, s2, d1, d2]
      = some ([y1, y2, y3, y4], [m1, m2], [d1, d2]) := by
  simp [date.regex_match_date, date.match_tail, h1, h2, h3, h4, hs1, hm2, hs2, hmg, hdg]

/-- A valid date of the years 2001 to 2099, written with four, two and two digits around any
two non-digit separators, is parsed back to itself. -/
theorem parse_date_date_text (d : Date) (s1 s2 : Char) (hv : d.valid)
    (hy1 : 2001 ≤ d.year) (hy2 : d.year ≤ 2099)
    (hs1 : s1.isDigit = false) (hs2 : s2.isDigit = false) :
    date.parse_date (date_text d s1 s2) = some d := by
  obtain ⟨hm1, hm12, hd1, hdn⟩ := hv
  have hd31 : d.day ≤ 31 := by
    have : calendar_days d.year d.month ≤ 31 := by
      unfold calendar_days
      split_ifs <;> omega
    omega
  obtain ⟨hmg, hms⟩ := two_digits_month d.month hm1 hm12
  obtain ⟨hdg, hds⟩ := two_digits_day d.day hd1 hd31
  have hys := stoi_four_digits d.year (by omega) (by omega)
  have hre : date.regex_match_date (date_text d s1 s2).toList
      = some (four_digits d.year, two_digits d.month, two_digits d.day) := by
    have hm2 : (date.digit_char (d.month.toNat % 10)).isDigit = true :=
      digit_char_isDigit _ (by omega)
    exact regex_match_date_ten _ _ _ _ s1 _ _ s2 _ _
      (digit_char_isDigit _ (by omega)) (digit_char_isDigit _ (by omega))
      (digit_char_isDigit _ (by omega)) (digit_char_isDigit _ (by omega)) hs1 hm2 hs2 hmg hdg
  unfold date.parse_date
  rw [hre]
  simp only [hys, hms, hds]
  rw [days_in_month_table _ _ hm1 hm12, if_neg (by omega), if_neg (by omega)]

/-- C13: `parse_date` is complete on well-shaped text.  For every valid calendar date with
year in 2001..2099 and every two separator characters that are not digits, the text of the
four-digit year, separator, two-digit month, separator and two-digit day is accepted and
yields exactly that day, month and year; `2024-02-29` yields 29 February 2024. -/
theorem parse_date_complete :
    (∀ (d : Date) (s1 s2 : Char), d.valid → 2001 ≤ d.year → d.year ≤ 2099 →
      s1.isDigit = false → s2.isDigit = false →
      date.parse_date (date_text d s1 s2) = some d) ∧
    date.parse_date "2024-02-29" = some ⟨29, 2, 2024⟩ :=
  ⟨fun d s1 s2 hv hy1 hy2 hs1 hs2 => parse_date_date_text d s1 s2 hv hy1 hy2 hs1 hs2, by decide⟩

/-- Witness for `parse_date_complete`: 9 March 2031 written with `/` and `.`. -/
theorem parse_date_complete_witness :
    (⟨9, 3, 2031⟩ : Date).valid ∧ date_text ⟨9, 3, 2031⟩ '/' '.' = "2031/03.09" ∧
    date.parse_date (date_text ⟨9, 3, 2031⟩ '/' '.') = some ⟨9, 3, 2031⟩ :=
  ⟨by decide, by decide,
    parse_date_complete.1 ⟨9, 3, 2031⟩ '/' '.' (by decide) (by decide) (by decide) rfl rfl⟩

/-! ## Calendar: formatting -/

theorem nat_digits_small (fuel k : Nat) (hf : 0 < fuel) (hk : k < 10) :
    date.nat_digits fuel k = [date.digit_char k] := by
  obtain ⟨f, rfl⟩ := Nat.exists_eq_succ_of_ne_zero (Nat.pos_iff_ne_zero.1 hf)
  simp [date.nat_digits, hk]

theorem nat_digits_step (fuel k : Nat) (hf : 0 < fuel) (hk : 10 ≤ k) :
    date.nat_digits fuel k = date.nat_digits (fuel - 1) (k / 10) ++ [date.digit_char (k % 10)] := by
  obtain ⟨f, rfl⟩ := Nat.exists_eq_succ_of_ne_zero (Nat.pos_iff_ne_zero.1 hf)
  have hnot : ¬ k < 10 := by omega
  simp [date.nat_digits, hnot]

theorem to_string_padded (n : Int) (h0 : 0 ≤ n) (h : n < 100) :
    (if (date.to_string n).length < 2 then '0' :: date.to_string n else date.to_string n)
      = two_digits n := by
  obtain ⟨k, rfl⟩ := Int.eq_ofNat_of_zero_le h0
  have hk : k < 100 := by omega
  have hneg : ¬ ((k : Int) < 0) := by omega
  simp only [date.to_string, hneg, if_false, Int.natAbs_ofNat, two_digits, Int.toNat_ofNat]
  by_cases h10 : k < 10
  · rw [nat_digits_small _ _ (by omega) h10]
    have hz : k / 10 = 0 := by omega
    have hm : k % 10 = k := by omega
    simp only [List.length_singleton, hz, hm]
    rfl
  · rw [nat_digits_step _ _ (by omega) (by omega), nat_digits_small _ _ (by omega) (by omega)]
    simp

theorem to_string_four (n : Int) (h0 : 1000 ≤ n) (h : n ≤ 9999) :
    date.to_string n = four_digits n := by
  obtain ⟨k, rfl⟩ := Int.eq_ofNat_of_zero_le (by omega : (0 : Int) ≤ n)
  have hk : 1000 ≤ k ∧ k ≤ 9999 := by omega
  have hneg : ¬ ((k : Int) < 0) := by omega
  simp only [date.to_string, hneg, if_false, Int.natAbs_ofNat, four_digits, Int.toNat_ofNat]
  rw [nat_digits_step _ _ (by omega) (by omega), nat_digits_step _ _ (by omega) (by omega),
    nat_digits_step _ _ (by omega) (by omega), nat_digits_small _ _ (by omega) (by omega)]
  have e1 : k / 10 / 10 / 10 = k / 1000 := by omega
  have e2 : k / 10 / 10 % 10 = k / 100 % 10 := by omega
  simp [e1, e2]

/-- For a four-digit year, a month and a day below 100, `to_str` writes four, two and two
digits joined by `-`. -/
theorem to_str_eq_date_text (d : Date) (hy1 : 1000 ≤ d.year) (hy2 : d.year ≤ 9999)
    (hm0 : 0 ≤ d.month) (hm : d.month < 100) (hd0 : 0 ≤ d.day) (hd : d.day < 100) :
    date.to_str d = date_text d '-' '-' := by
  unfold date.to_str date_text
  simp only []
  rw [to_string_padded _ hm0 hm, to_string_padded _ hd0 hd, to_string_four _ hy1 hy2,
    List.append_assoc]
  rfl

/-- Parsing undoes formatting: a valid date of the years 2001 to 2099 is parsed back from the
text `to_str` writes. -/
theorem parse_to_str_roundtrip (d : Date) (hv : d.valid) (hy1 : 2001 ≤ d.year)
    (hy2 : d.year ≤ 2099) :
    date.parse_date (date.to_str d) = some d := by
  have hd31 : d.day ≤ 31 := by
    have : calendar_days d.year d.month ≤ 31 := by
      unfold calendar_days
      split_ifs <;> omega
    have := hv.2.2.2
    omega
  rw [to_str_eq_date_text d (by omega) (by omega) (by have := hv.1; omega)
    (by have := hv.2.1; omega) (by have := hv.2.2.1; omega) (by omega)]
  exact parse_date_date_text d '-' '-' hv hy1 hy2 rfl rfl

/-! ## Booking flow -/

/-- Creating a reservation for a room without an overlapping reservation keeps a ledger free
of overlaps. -/
theorem create_free_room_no_overlap (db : Database) (h : NoOverlap db)
    (user_id room_id guests_num : Int) (in_ out status : String) (fault : Bool)
    (hfree : db.has_overlapping_booking room_id in_ out = false) :
    NoOverlap (db.create_reservation user_id room_id guests_num in_ out status fault).1 := by
  cases fault
  · show List.Pairwise _ (db.bookings ++ [_])
    rw [List.pairwise_append]
    rw [has_overlapping_booking_eq_false] at hfree
    refine ⟨h, List.pairwise_singleton _ _, ?_⟩
    intro a ha b hb hr
    rw [List.mem_singleton] at hb
    subst hb
    exact hfree a ha hr
  · exact h

/-- C19: the sequential booking flow keeps the ledger free of overlaps.  Whatever the filter,
the chosen room number, the confirmation, the payment method, the user and the behaviour of
the store, when `reservation_process` finishes on a ledger without overlapping reservations
the ledger afterwards has none either: the room id it inserts comes from the result of
`new_search` for the same dates on the same ledger. -/
theorem reservation_process_no_overlap (db : Database) (filter : Filter)
    (pick : List (RoomRow × RoomTypeRow) → Nat) (tz : Int) (room_num : Nat) (confirmed : Bool)
    (payment_type : Option String) (user_id : Int) (fault : Bool) (db' : Database)
    (h : NoOverlap db)
    (hrun : BookingSystem.reservation_process db filter pick tz room_num confirmed payment_type
      user_id fault = some db') :
    NoOverlap db' := by
  unfold BookingSystem.reservation_process at hrun
  simp only [] at hrun
  by_cases h1 : (db.new_search filter pick).isEmpty = true
  · rw [if_pos h1, Option.some.injEq] at hrun
    exact hrun ▸ h
  · rw [if_neg h1] at hrun
    by_cases h2 : room_num = 0
    · rw [if_pos h2, Option.some.injEq] at hrun
      exact hrun ▸ h
    · rw [if_neg h2] at hrun
      cases hroom : (db.new_search filter pick)[room_num - 1]? with
      | none =>
        rw [hroom] at hrun
        simp only [Option.some.injEq] at hrun
        exact hrun ▸ h
      | some room =>
        rw [hroom] at hrun
        simp only [] at hrun
        cases hprice : BookingSystem.full_price tz filter room with
        | none =>
          rw [hprice] at hrun
          exact absurd hrun (by simp)
        | some price =>
          rw [hprice] at hrun
          simp only [] at hrun
          cases confirmed with
          | false =>
            simp only [Bool.not_false, if_true, Option.some.injEq] at hrun
            exact hrun ▸ h
          | true =>
            simp only [Bool.not_true, Bool.false_eq_true, if_false] at hrun
            cases payment_type with
            | none =>
              simp only [Option.some.injEq] at hrun
              exact hrun ▸ h
            | some status =>
              simp only [Option.some.injEq] at hrun
              subst hrun
              obtain ⟨r, _, _, _, _, hroom_eq, _, hfree⟩ :=
                new_search_entry_origin db filter pick room (List.getElem?_mem hroom)
              apply create_free_room_no_overlap db h
              rw [hroom_eq]
              exact hfree

/-- Witness for `reservation_process_no_overlap`: on the sample ledger the flow books the
first entry found for 5 to 7 June 2024 (room 1, free again on its check-out day), and the
ledger, now with two reservations, has no overlap. -/
theorem reservation_process_no_overlap_witness :
    NoOverlap one_booking ∧
    BookingSystem.reservation_process one_booking ⟨"2024-06-05", "2024-06-07", 2⟩ (fun _ => 0)
      (-10800) 1 true (some "paid") 8 false
      = some { one_booking with
          bookings := [⟨1, 7, 1, 2, "2024-06-01", "2024-06-05", "not paid"⟩,
                       ⟨2, 8, 1, 2, "2024-06-05", "2024-06-07", "paid"⟩] } ∧
    NoOverlap { one_booking with
      bookings := [⟨1, 7, 1, 2, "2024-06-01", "2024-06-05", "not paid"⟩,
                   ⟨2, 8, 1, 2, "2024-06-05", "2024-06-07", "paid"⟩] } :=
  ⟨by decide, by decide,
    reservation_process_no_overlap one_booking ⟨"2024-06-05", "2024-06-07", 2⟩ (fun _ => 0)
      (-10800) 1 true (some "paid") 8 false _ (by decide) (by decide)⟩

/-! ## Half-open date ranges -/

theorem lex_lt_irrefl (l : List Char) : lex_lt l l = false := by
  induction l with
  | nil => rfl
  | cons a as ih => simp [lex_lt, ih]

theorem text_lt_irrefl (s : String) : text_lt s s = false :=
  lex_lt_irrefl s.toList

/-- A catalog unit that is free in the requested range and large enough makes `new_search`
return an entry of its (type, capacity) bucket. -/
theorem new_search_free_unit_entry (db : Database) (filter : Filter)
    (pick : List (RoomRow × RoomTypeRow) → Nat) (X : RoomRow) (rt : RoomTypeRow)
    (hX : X ∈ db.rooms) (hrt : rt ∈ db.room_types) (hty : X.type_id = rt.type_id)
    (hcap : filter.guests ≤ X.capacity)
    (hfree : db.has_overlapping_booking X.room_id filter.in_ filter.out = false) :
    ∃ e ∈ db.new_search filter pick, ∃ u ∈ db.rooms, ∃ rt' ∈ db.room_types,
      u.type_id = X.type_id ∧ rt'.type_id = X.type_id ∧
        e = ⟨u.room_id, rt'.name, X.capacity, u.price⟩ := by
  have hsel := (mem_new_search_selected db filter (X, rt)).2 ⟨⟨hX, hrt, hty⟩, hfree, hcap⟩
  obtain ⟨z, hz, hkey, hmem⟩ := grouped_complete (fun x => (x.1.type_id, x.1.capacity)) key_le _
    pick (fun _ x => (⟨x.1.room_id, x.2.name, x.1.capacity, x.1.price⟩ : Room)) (X, rt) hsel
  rw [mem_new_search_selected db filter z] at hz
  simp only [Prod.mk.injEq] at hkey
  refine ⟨_, hmem, z.1, hz.1.1, z.2, hz.1.2.1, hkey.1, hz.1.2.2 ▸ hkey.1, ?_⟩
  rw [hkey.2]

/-- C16: date ranges are half-open for availability.  Let room `X` of the catalog have the
range from `a` to `b` as its only reservation.  A request that checks in on `b` and a request
that checks out on `a` both find no overlapping reservation for `X`, and `new_search` returns
an entry of the bucket of `X`; a request from `x` to `y` with `x < b` and `y > a` finds an
overlapping reservation and no returned entry carries the id of `X`. -/
theorem half_open_availability (db : Database) (X : RoomRow) (rt : RoomTypeRow)
    (a b : String) (guests : Int) (pick : List (RoomRow × RoomTypeRow) → Nat)
    (hX : X ∈ db.rooms) (hrt : rt ∈ db.room_types) (hty : X.type_id = rt.type_id)
    (hcap : guests ≤ X.capacity)
    (hex : ∃ bk ∈ db.bookings, bk.room_id = X.room_id)
    (honly : ∀ bk ∈ db.bookings, bk.room_id = X.room_id → bk.date_in = a ∧ bk.date_out = b) :
    (∀ c, db.has_overlapping_booking X.room_id b c = false ∧
      ∃ e ∈ db.new_search ⟨b, c, guests⟩ pick, ∃ u ∈ db.rooms, ∃ rt' ∈ db.room_types,
        u.type_id = X.type_id ∧ rt'.type_id = X.type_id ∧
          e = ⟨u.room_id, rt'.name, X.capacity, u.price⟩) ∧
    (∀ z, db.has_overlapping_booking X.room_id z a = false ∧
      ∃ e ∈ db.new_search ⟨z, a, guests⟩ pick, ∃ u ∈ db.rooms, ∃ rt' ∈ db.room_types,
        u.type_id = X.type_id ∧ rt'.type_id = X.type_id ∧
          e = ⟨u.room_id, rt'.name, X.capacity, u.price⟩) ∧
    (∀ x y, text_lt x b = true → text_lt a y = true →
      db.has_overlapping_booking X.room_id x y = true ∧
        ∀ e ∈ db.new_search ⟨x, y, guests⟩ pick, e.room_id ≠ X.room_id) := by
  have hfree1 : ∀ c, db.has_overlapping_booking X.room_id b c = false := by
    intro c
    rw [has_overlapping_booking_eq_false]
    intro bk hbk hroom
    obtain ⟨_, hout⟩ := honly bk hbk hroom
    simp [overlaps_range, hout, text_lt_irrefl]
  have hfree2 : ∀ z, db.has_overlapping_booking X.room_id z a = false := by
    intro z
    rw [has_overlapping_booking_eq_false]
    intro bk hbk hroom
    obtain ⟨hin, _⟩ := honly bk hbk hroom
    simp [overlaps_range, hin, text_lt_irrefl]
  refine ⟨fun c => ⟨hfree1 c, ?_⟩, fun z => ⟨hfree2 z, ?_⟩, ?_⟩
  · exact new_search_free_unit_entry db ⟨b, c, guests⟩ pick X rt hX hrt hty hcap (hfree1 c)
  · exact new_search_free_unit_entry db ⟨z, a, guests⟩ pick X rt hX hrt hty hcap (hfree2 z)
  · intro x y hxb hay
    have hov : db.has_overlapping_booking X.room_id x y = true := by
      obtain ⟨bk, hbk, hroom⟩ := hex
      obtain ⟨hin, hout⟩ := honly bk hbk hroom
      unfold Database.has_overlapping_booking
      rw [List.any_eq_true]
      exact ⟨bk, hbk, by simp [overlaps_range, hroom, hin, hout, hxb, hay]⟩
    refine ⟨hov, ?_⟩
    intro e he hid
    obtain ⟨r, _, _, _, _, rfl, _, hfree⟩ := new_search_entry_origin db _ pick e he
    simp only [] at hid
    rw [hid, hov] at hfree
    exact absurd hfree (by simp)

/-- Witness for `half_open_availability`: room 3 of the sample catalog with the single
reservation from 1 to 5 June 2024; the request from 5 to 9 June finds it free. -/
theorem half_open_availability_witness :
    ({ empty_ledger with bookings := [⟨1, 7, 3, 2, "2024-06-01", "2024-06-05", "paid"⟩] } :
      Database).has_overlapping_booking 3 "2024-06-05" "2024-06-09" = false ∧
    ∃ e ∈ ({ empty_ledger with bookings := [⟨1, 7, 3, 2, "2024-06-01", "2024-06-05", "paid"⟩] } :
        Database).new_search ⟨"2024-06-05", "2024-06-09", 2⟩ (fun _ => 0),
      ∃ u ∈ empty_ledger.rooms, ∃ rt' ∈ empty_ledger.room_types,
        u.type_id = 2 ∧ rt'.type_id = 2 ∧ e = ⟨u.room_id, rt'.name, 4, u.price⟩ :=
  (half_open_availability
    { empty_ledger with bookings := [⟨1, 7, 3, 2, "2024-06-01", "2024-06-05", "paid"⟩] }
    ⟨3, 2, 4, 500⟩ ⟨2, "Lux"⟩ "2024-06-01" "2024-06-05" 2 (fun _ => 0) (by decide) (by decide)
    rfl (by decide) (by decide) (by decide)).1 "2024-06-09"

/-! ## Calendar: text order -/

theorem text_lt_date_text (a b : Date)
    (hay : 0 ≤ a.year ∧ a.year ≤ 9999) (ham : 0 ≤ a.month ∧ a.month ≤ 99)
    (had : 0 ≤ a.day ∧ a.day ≤ 99)
    (hby : 0 ≤ b.year ∧ b.year ≤ 9999) (hbm : 0 ≤ b.month ∧ b.month ≤ 99)
    (hbd : 0 ≤ b.day ∧ b.day ≤ 99) :
    text_lt (date_text a '-' '-') (date_text b '-' '-') = true ↔ a.before b := by
  obtain ⟨ya, hya⟩ := Int.eq_ofNat_of_zero_le hay.1
  obtain ⟨ma, hma⟩ := Int.eq_ofNat_of_zero_le ham.1
  obtain ⟨da, hda⟩ := Int.eq_ofNat_of_zero_le had.1
  obtain ⟨yb, hyb⟩ := Int.eq_ofNat_of_zero_le hby.1
  obtain ⟨mb, hmb⟩ := Int.eq_ofNat_of_zero_le hbm.1
  obtain ⟨db, hdb⟩ := Int.eq_ofNat_of_zero_le hbd.1
  have b1 : ya ≤ 9999 := by omega
  have b2 : ma ≤ 99 := by omega
  have b3 : da ≤ 99 := by omega
  have b4 : yb ≤ 9999 := by omega
  have b5 : mb ≤ 99 := by omega
  have b6 : db ≤ 99 := by omega
  unfold Date.before
  simp only [text_lt, date_text, four_digits, two_digits, hya, hma, hda, hyb, hmb, hdb,
    Int.toNat_ofNat, List.cons_append, List.nil_append, lex_lt, Bool.or_eq_true,
    Bool.and_eq_true, decide_eq_true_eq]
  rw [digit_char_toNat _ (by omega), digit_char_toNat _ (by omega),
    digit_char_toNat _ (by omega), digit_char_toNat _ (by omega),
    digit_char_toNat _ (by omega), digit_char_toNat _ (by omega),
    digit_char_toNat _ (by omega), digit_char_toNat _ (by omega),
    digit_char_toNat _ (by omega), digit_char_toNat _ (by omega),
    digit_char_toNat _ (by omega), digit_char_toNat _ (by omega),
    digit_char_toNat _ (by omega), digit_char_toNat _ (by omega),
    digit_char_toNat _ (by omega), digit_char_toNat _ (by omega)]
  simp only [lt_self_iff_false, false_or, true_and, Bool.false_eq_true, or_false, and_false]
  omega

/-- C18: `to_str` is strictly order-preserving.  For dates with a four-digit year, month in
1..12 and day in 1..31, the text of `a` is below the text of `b` in the order SQLite uses for
text exactly when `a` is chronologically earlier than `b`, and the texts are equal exactly
when the dates are equal. -/
theorem to_str_order_preserving (a b : Date)
    (ha : 1000 ≤ a.year ∧ a.year ≤ 9999 ∧ 1 ≤ a.month ∧ a.month ≤ 12 ∧ 1 ≤ a.day ∧ a.day ≤ 31)
    (hb : 1000 ≤ b.year ∧ b.year ≤ 9999 ∧ 1 ≤ b.month ∧ b.month ≤ 12 ∧ 1 ≤ b.day ∧ b.day ≤ 31) :
    (text_lt (date.to_str a) (date.to_str b) = true ↔ a.before b) ∧
    (date.to_str a = date.to_str b ↔ a = b) := by
  obtain ⟨ha1, ha2, ha3, ha4, ha5, ha6⟩ := ha
  obtain ⟨hb1, hb2, hb3, hb4, hb5, hb6⟩ := hb
  have hsa := to_str_eq_date_text a ha1 ha2 (by omega) (by omega) (by omega) (by omega)
  have hsb := to_str_eq_date_text b hb1 hb2 (by omega) (by omega) (by omega) (by omega)
  have hab := text_lt_date_text a b ⟨by omega, ha2⟩ ⟨by omega, by omega⟩ ⟨by omega, by omega⟩
    ⟨by omega, hb2⟩ ⟨by omega, by omega⟩ ⟨by omega, by omega⟩
  have hba := text_lt_date_text b a ⟨by omega, hb2⟩ ⟨by omega, by omega⟩ ⟨by omega, by omega⟩
    ⟨by omega, ha2⟩ ⟨by omega, by omega⟩ ⟨by omega, by omega⟩
  rw [hsa, hsb]
  refine ⟨hab, ?_, fun h => h ▸ rfl⟩
  intro heq
  have h1 : ¬ a.before b := by
    rw [← hab, heq, text_lt_irrefl]
    simp
  have h2 : ¬ b.before a := by
    rw [← hba, heq, text_lt_irrefl]
    simp
  unfold Date.before at h1 h2
  obtain ⟨ad, am, ay⟩ := a
  obtain ⟨bd, bm, bY⟩ := b
  simp only [Date.mk.injEq] at h1 h2 ⊢
  omega

/-- Witness for `to_str_order_preserving`: 29 February 2024 is earlier than 1 March 2024 and
`2024-02-29` is below `2024-03-01`. -/
theorem to_str_order_preserving_witness :
    date.to_str ⟨29, 2, 2024⟩ = "2024-02-29" ∧ date.to_str ⟨1, 3, 2024⟩ = "2024-03-01" ∧
    (text_lt (date.to_str ⟨29, 2, 2024⟩) (date.to_str ⟨1, 3, 2024⟩) = true ↔
      (⟨29, 2, 2024⟩ : Date).before ⟨1, 3, 2024⟩) ∧
    (date.to_str ⟨29, 2, 2024⟩ = date.to_str ⟨1, 3, 2024⟩ ↔
      (⟨29, 2, 2024⟩ : Date) = ⟨1, 3, 2024⟩) :=
  ⟨by decide, by decide,
    to_str_order_preserving ⟨29, 2, 2024⟩ ⟨1, 3, 2024⟩ (by decide) (by decide)⟩

/-! ## Calendar: day counts -/

/-- The quote of `reservation_process` for a filter written from two valid dates: the
`.value()` calls succeed and the price is the nightly price times `days_between_dates`. -/
theorem full_price_of_valid (tz : Int) (a b : Date) (ha : a.valid) (hb : b.valid)
    (hay : 2001 ≤ a.year ∧ a.year ≤ 2099) (hby : 2001 ≤ b.year ∧ b.year ≤ 2099)
    (guests : Int) (room : Room) :
    BookingSystem.full_price tz ⟨date.to_str a, date.to_str b, guests⟩ room
      = some (room.price * (date.days_between_dates tz a b : ℚ)) := by
  unfold BookingSystem.full_price
  simp only [parse_to_str_roundtrip a ha hay.1 hay.2, parse_to_str_roundtrip b hb hby.1 hby.2]

/-- C20: parsing undoes formatting.  For every valid calendar date `a` with year in
2001..2099, `parse_date (to_str a)` succeeds and returns `a`; consequently, for a filter
written from two such dates, the `.value()` calls in `reservation_process` do not throw: the
quote is computed and the pass of the flow finishes. -/
theorem parse_date_to_str (a b : Date) (ha : a.valid) (hb : b.valid)
    (hay : 2001 ≤ a.year ∧ a.year ≤ 2099) (hby : 2001 ≤ b.year ∧ b.year ≤ 2099) :
    date.parse_date (date.to_str a) = some a ∧
    (∀ tz guests room,
      (BookingSystem.full_price tz ⟨date.to_str a, date.to_str b, guests⟩ room).isSome = true) ∧
    (∀ db pick tz guests room_num confirmed payment_type user_id fault,
      (BookingSystem.reservation_process db ⟨date.to_str a, date.to_str b, guests⟩ pick tz
        room_num confirmed payment_type user_id fault).isSome = true) := by
  refine ⟨parse_to_str_roundtrip a ha hay.1 hay.2, ?_, ?_⟩
  · intro tz guests room
    rw [full_price_of_valid tz a b ha hb hay hby guests room]
    rfl
  · intro db pick tz guests room_num confirmed payment_type user_id fault
    unfold BookingSystem.reservation_process
    simp only []
    by_cases h1 : (db.new_search ⟨date.to_str a, date.to_str b, guests⟩ pick).isEmpty = true
    · rw [if_pos h1]
      rfl
    · rw [if_neg h1]
      by_cases h2 : room_num = 0
      · rw [if_pos h2]
        rfl
      · rw [if_neg h2]
        cases hroom :
            (db.new_search ⟨date.to_str a, date.to_str b, guests⟩ pick)[room_num - 1]? with
        | none => rfl
        | some room =>
          simp only []
          rw [full_price_of_valid tz a b ha hb hay hby guests room]
          simp only []
          cases confirmed <;> cases payment_type <;> rfl

/-- Witness for `parse_date_to_str`: 29 February 2024 and 2 March 2024. -/
theorem parse_date_to_str_witness :
    (⟨29, 2, 2024⟩ : Date).valid ∧ (⟨2, 3, 2024⟩ : Date).valid ∧
    date.to_str ⟨29, 2, 2024⟩ = "2024-02-29" ∧
    date.parse_date (date.to_str ⟨29, 2, 2024⟩) = some ⟨29, 2, 2024⟩ :=
  ⟨by decide, by decide, by decide,
    (parse_date_to_str ⟨29, 2, 2024⟩ ⟨2, 3, 2024⟩ (by decide) (by decide) (by decide)
      (by decide)).1⟩

end HotelBooking
